import Mathlib

/-!
Verification development for the swscore graph-construction core.

The Go sources under handlers/graph.go and graph/appender/response_time.go are
embedded shallowly: Go maps become association lists, float64 metric values
become exact rationals, pointer-linked nodes and edges are keyed by their ids,
and panics become values of an Except monad.  The graph package itself
(node/edge data model, identity resolver) is not part of the sources, only its
callers are; those few definitions are modelled from the specification and are
marked as such in their doc comments.
-/

/-- A metadata value: the Go code stores float64 counters, bool flags, strings
and string-set maps in the open map[string]interface\x7b\x7d metadata. -/
inductive MetaVal where
  | num (v : ℚ)
  | flag (b : Bool)
  | str (s : String)
  | strset (s : List (String × Bool))
deriving DecidableEq

/-- A metadata map, Go map[string]interface\x7b\x7d with string keys. -/
abbrev Metadata := List (String × MetaVal)

/-- Go map read md[k], returning none when the key is absent. -/
def mdLookup : Metadata → String → Option MetaVal
  | [], _ => none
  | (k', v) :: rest, k => if k' = k then some v else mdLookup rest k

/-- Go map write md[k] = v: replace the binding if present, else add it. -/
def mdInsert : Metadata → String → MetaVal → Metadata
  | [], k, v => [(k, v)]
  | (k', v') :: rest, k, v =>
    if k' = k then (k, v) :: rest else (k', v') :: mdInsert rest k v

/-- A directed edge.  The Go Edge holds Source and Dest node pointers into the
owning TrafficMap; the embedding records the two node ids instead. -/
structure Edge where
  SourceID : String
  DestID : String
  Metadata : Metadata
deriving DecidableEq

/-- A graph node, mirroring the Go graph.Node fields. -/
structure Node where
  ID : String
  NodeType : String
  Namespace : String
  Workload : String
  App : String
  Version : String
  Service : String
  Edges : List Edge
  Metadata : Metadata
deriving DecidableEq

/-- TrafficMap: Go map from node id to node pointer, embedded as an
association list from id to node value. -/
abbrev TrafficMap := List (String × Node)

/-- graph.NewTrafficMap creates an empty map. -/
def NewTrafficMap : TrafficMap := []

/-- Go map read trafficMap[id]. -/
def tmLookup : TrafficMap → String → Option Node
  | [], _ => none
  | (k', n) :: rest, k => if k' = k then some n else tmLookup rest k

/-- Go map write trafficMap[id] = n: replace the binding if present, else add it. -/
def tmInsert : TrafficMap → String → Node → TrafficMap
  | [], k, n => [(k, n)]
  | (k', n') :: rest, k, n =>
    if k' = k then (k, n) :: rest else (k', n') :: tmInsert rest k n

/-- In-place mutation of the node that trafficMap[id] points at: apply f to the
binding of id if present, do nothing otherwise. -/
def tmUpdate : TrafficMap → String → (Node → Node) → TrafficMap
  | [], _, _ => []
  | (k', n) :: rest, k, f =>
    if k' = k then (k', f n) :: rest else (k', n) :: tmUpdate rest k f

/-- Modelled from the spec: the graph package sentinel namespace "unknown" for
traffic whose source could not be attributed (spec 4.1 rule 1); the graph
package is not among the sources. -/
def Unknown : String := "unknown"

/-- Modelled from the spec: graph package node-kind constant. -/
def NodeTypeApp : String := "app"

/-- Modelled from the spec: graph package node-kind constant. -/
def NodeTypeService : String := "service"

/-- Modelled from the spec: graph package node-kind constant. -/
def NodeTypeUnknown : String := "unknown"

/-- Modelled from the spec: graph package node-kind constant. -/
def NodeTypeWorkload : String := "workload"

/-- Modelled from the spec: graph package node-kind constant. -/
def NodeTypeVersionedApp : String := "versionedApp"

/-- Modelled from the spec: graph package graph-type constant. -/
def GraphTypeApp : String := "app"

/-- Modelled from the spec: graph package graph-type constant. -/
def GraphTypeService : String := "service"

/-- Modelled from the spec: graph package graph-type constant. -/
def GraphTypeVersionedApp : String := "versionedApp"

/-- Modelled from the spec: graph package graph-type constant. -/
def GraphTypeWorkload : String := "workload"

/-- Modelled from the spec: graph.IsOK reports whether a telemetry label value
is usable, i.e. set and not the unknown sentinel. -/
def IsOK (telemetryVal : String) : Bool :=
  decide (telemetryVal ≠ "" ∧ telemetryVal ≠ Unknown)

/-- Modelled from the spec: graph.Id, the Identity Resolver of spec 4.1, which
is not among the sources.  Rules in priority order: the unknown-namespace
sentinel; a pure service reference; per-application aggregation (versioned when
a version is present and the graph type distinguishes versions); otherwise
workload.  The id concatenates the kind and the fields relevant to it with a
fixed delimiter, making it injective across kinds. -/
def graphId (ns wl app ver svc graphType : String) : String × String :=
  if ns = Unknown then
    (Unknown, NodeTypeUnknown)
  else if svc ≠ "" ∧ wl = "" ∧ app = "" ∧ ver = "" then
    (NodeTypeService ++ "|" ++ ns ++ "|" ++ svc, NodeTypeService)
  else if graphType = GraphTypeApp ∨ graphType = GraphTypeVersionedApp then
    if graphType = GraphTypeVersionedApp ∧ ver ≠ "" then
      (NodeTypeApp ++ "|" ++ ns ++ "|" ++ app ++ "|" ++ ver, NodeTypeVersionedApp)
    else
      (NodeTypeApp ++ "|" ++ ns ++ "|" ++ app, NodeTypeApp)
  else
    (NodeTypeWorkload ++ "|" ++ ns ++ "|" ++ wl, NodeTypeWorkload)

/-- Modelled from the spec: graph.NewNodeExplicit, not among the sources.
Fields are populated according to the kind and unused fields are left empty
(spec 3); workload and app kinds keep the app/version attribution labels,
which the misconfiguration reconciliation of spec 4.3 step 5 reads back.
A fresh node carries no edges and empty metadata. -/
def NewNodeExplicit (id ns wl app ver svc nodeType graphType : String) : Node :=
  if nodeType = NodeTypeService then
    { ID := id, NodeType := nodeType, Namespace := ns, Workload := "", App := "",
      Version := "", Service := svc, Edges := [], Metadata := [] }
  else if nodeType = NodeTypeUnknown then
    { ID := id, NodeType := nodeType, Namespace := ns, Workload := "", App := "",
      Version := "", Service := "", Edges := [], Metadata := [] }
  else
    { ID := id, NodeType := nodeType, Namespace := ns, Workload := wl, App := app,
      Version := ver, Service := "", Edges := [], Metadata := [] }

/-- Request options consumed by the traffic-map builder and classifier
(options.Options fields used by the embedded code; Namespaces keeps the
namespace names and AccessibleNamespaces the keys of the grant map). -/
structure Options where
  GraphType : String
  InjectServiceNodes : Bool
  Namespaces : List String
  AccessibleNamespaces : List String

/-- addNode from handlers/graph.go: resolve the id, create the node if absent.
Returns the updated map, the resolved id, and the Go found flag. -/
def addNode (tm : TrafficMap) (ns wl app ver svc graphType : String) :
    TrafficMap × String × Bool :=
  let p := graphId ns wl app ver svc graphType
  match tmLookup tm p.1 with
  | some _ => (tm, p.1, true)
  | none => (tmInsert tm p.1 (NewNodeExplicit p.1 ns wl app ver svc p.2 graphType), p.1, false)

/-- addToMetadataValue from handlers/graph.go: md[k] = md[k] + v, treating an
absent key as 0.  The Go code type-asserts a present value to float64; a
non-numeric value at a counter key would panic and is unreachable, the model
restarts the counter at v there. -/
def addToMetadataValue (md : Metadata) (k : String) (v : ℚ) : Metadata :=
  match mdLookup md k with
  | some (MetaVal.num curr) => mdInsert md k (MetaVal.num (curr + v))
  | some _ => mdInsert md k (MetaVal.num v)
  | none => mdInsert md k (MetaVal.num v)

/-- averageMetadataValue from handlers/graph.go: keeps running shadow keys
k_total and k_count and stores total/count at k. -/
def averageMetadataValue (md : Metadata) (k : String) (v : ℚ) : Metadata :=
  let kTotal := k ++ "_total"
  let kCount := k ++ "_count"
  let total : ℚ :=
    match mdLookup md kTotal with
    | some (MetaVal.num prevTotal) => v + prevTotal
    | _ => v
  let count : ℚ :=
    match mdLookup md kCount with
    | some (MetaVal.num prevCount) => 1 + prevCount
    | _ => 1
  mdInsert (mdInsert (mdInsert md kTotal (MetaVal.num total)) kCount (MetaVal.num count))
    k (MetaVal.num (total / count))

/-- Replace-or-create for the destServices string set used as a set. -/
def ssInsert : List (String × Bool) → String → List (String × Bool)
  | [], k => [(k, true)]
  | (k', b) :: rest, k =>
    if k' = k then (k, true) :: rest else (k', b) :: ssInsert rest k

/-- addToDestServices from handlers/graph.go: record the destination service
name in the destServices set (map used as a set, values true). -/
def addToDestServices (md : Metadata) (destService : String) : Metadata :=
  match mdLookup md "destServices" with
  | some (MetaVal.strset s) => mdInsert md "destServices" (MetaVal.strset (ssInsert s destService))
  | some _ => md
  | none => mdInsert md "destServices" (MetaVal.strset (ssInsert [] destService))

/-- handleMisconfiguredLabels from handlers/graph.go: on a looked-up workload
node (or app node of a versioned-app graph) whose recorded app/version differ
from the sample labels, record the misconfiguration and, for an active series,
trust the sample labels. -/
def handleMisconfiguredLabels (node : Node) (app version : String) (rate : ℚ)
    (graphType : String) : Node :=
  let isVersionedAppGraph := graphType = GraphTypeVersionedApp
  let isWorkloadNode := node.NodeType = NodeTypeWorkload
  let isVersionedAppNode := node.NodeType = NodeTypeApp ∧ isVersionedAppGraph
  if isWorkloadNode ∨ isVersionedAppNode then
    let labels :=
      (if node.App ≠ app then ["app"] else []) ++
        (if node.Version ≠ version then ["version"] else [])
    if labels ≠ [] then
      let node' := { node with
        Metadata := mdInsert node.Metadata "isMisconfigured"
          (MetaVal.str ("labels=[" ++ String.intercalate " " labels ++ "]")) }
      if rate > 0 then { node' with App := app, Version := version } else node'
    else node
  else node

/-- strings.HasPrefix from the Go standard library, on the character lists of
the two strings. -/
def strStartsWith (s p : String) : Bool := p.data.isPrefixOf s.data

/-- First index in the edge list satisfying p, the position the Go edge
pointer refers to. -/
def findEdgeIdx : List Edge → (Edge → Bool) → Option Nat
  | [], _ => none
  | e :: rest, p => if p e then some 0 else (findEdgeIdx rest p).map (· + 1)

/-- Mutate the edge at position i through its pointer; out of range is a
no-op (never reached from the builder). -/
def edgesModify : List Edge → Nat → (Edge → Edge) → List Edge
  | [], _, _ => []
  | e :: rest, 0, f => f e :: rest
  | e :: rest, i + 1, f => e :: edgesModify rest i f

/-- Accumulate v into the metadata counter k of the edge at position i. -/
def edgeAddVal (es : List Edge) (i : Nat) (k : String) (v : ℚ) : List Edge :=
  edgesModify es i (fun e => { e with Metadata := addToMetadataValue e.Metadata k v })

/-- The find-or-create edge step of addHttpTraffic and addTcpTraffic: search
the source node edge list with the given duplicate criterion; when nothing
matches, append a fresh source-to-dest edge whose only metadata is the
protocol.  The returned index is the position the Go edge pointer refers to
for the later counter updates. -/
def findOrCreateEdge (es : List Edge) (p : Edge → Bool)
    (sourceId destId protocol : String) : List Edge × Nat :=
  match findEdgeIdx es p with
  | some i => (es, i)
  | none => (es ++ [Edge.mk sourceId destId (mdInsert [] "protocol" (MetaVal.str protocol))], es.length)

/-- addHttpTraffic from handlers/graph.go: find or create source and dest
nodes, record the dest service, find or create the (dest, protocol http) edge
hanging off the source node, reconcile misconfigured labels on looked-up
nodes, then accumulate val into httpOut/httpIn/http and, by response-code
class, into the 3xx/4xx/5xx buckets of the dest node and the edge. -/
def addHttpTraffic (tm0 : TrafficMap) (val : ℚ)
    (code sourceWlNs sourceWl sourceApp sourceVer sourceSvcName
      destSvcNs destWl destApp destVer destSvcName : String) (o : Options) : TrafficMap :=
  let ps := addNode tm0 sourceWlNs sourceWl sourceApp sourceVer sourceSvcName o.GraphType
  let sourceId := ps.2.1
  let sourceFound := ps.2.2
  let pd := addNode ps.1 destSvcNs destWl destApp destVer destSvcName o.GraphType
  let destId := pd.2.1
  let destFound := pd.2.2
  let tm3 := tmUpdate pd.1 destId
    (fun n => { n with Metadata := addToDestServices n.Metadata destSvcName })
  match tmLookup tm3 sourceId with
  | none => tm3
  | some sn =>
    let pe := findOrCreateEdge sn.Edges (fun e =>
      decide (e.DestID = destId) &&
        decide (mdLookup e.Metadata "protocol" = some (MetaVal.str "http"))) sourceId destId "http"
    let tm4 := tmInsert tm3 sourceId { sn with Edges := pe.1 }
    let tm5 := if sourceFound then
        tmUpdate tm4 sourceId (fun n => handleMisconfiguredLabels n sourceApp sourceVer val o.GraphType)
      else tm4
    let tm6 := if destFound then
        tmUpdate tm5 destId (fun n => handleMisconfiguredLabels n destApp destVer val o.GraphType)
      else tm5
    let tm7 := tmUpdate tm6 sourceId
      (fun n => { n with Metadata := addToMetadataValue n.Metadata "httpOut" val })
    let tm8 := tmUpdate tm7 destId
      (fun n => { n with Metadata := addToMetadataValue n.Metadata "httpIn" val })
    let tm9 := tmUpdate tm8 sourceId
      (fun n => { n with Edges := edgeAddVal n.Edges pe.2 "http" val })
    if strStartsWith code "3" then
      let tmA := tmUpdate tm9 destId
        (fun n => { n with Metadata := addToMetadataValue n.Metadata "httpIn3xx" val })
      tmUpdate tmA sourceId
        (fun n => { n with Edges := edgeAddVal n.Edges pe.2 "http3xx" val })
    else if strStartsWith code "4" then
      let tmA := tmUpdate tm9 destId
        (fun n => { n with Metadata := addToMetadataValue n.Metadata "httpIn4xx" val })
      tmUpdate tmA sourceId
        (fun n => { n with Edges := edgeAddVal n.Edges pe.2 "http4xx" val })
    else if strStartsWith code "5" then
      let tmA := tmUpdate tm9 destId
        (fun n => { n with Metadata := addToMetadataValue n.Metadata "httpIn5xx" val })
      tmUpdate tmA sourceId
        (fun n => { n with Edges := edgeAddVal n.Edges pe.2 "http5xx" val })
    else tm9

/-- addTcpTraffic from handlers/graph.go.  Note: the Go duplicate-edge lookup
reads the metadata key spelled procotol, while edges are created with the key
protocol, so the lookup never matches an existing edge. -/
def addTcpTraffic (tm0 : TrafficMap) (val : ℚ)
    (sourceWlNs sourceWl sourceApp sourceVer sourceSvcName
      destSvcNs destWl destApp destVer destSvcName : String) (o : Options) : TrafficMap :=
  let ps := addNode tm0 sourceWlNs sourceWl sourceApp sourceVer sourceSvcName o.GraphType
  let sourceId := ps.2.1
  let sourceFound := ps.2.2
  let pd := addNode ps.1 destSvcNs destWl destApp destVer destSvcName o.GraphType
  let destId := pd.2.1
  let destFound := pd.2.2
  let tm3 := tmUpdate pd.1 destId
    (fun n => { n with Metadata := addToDestServices n.Metadata destSvcName })
  match tmLookup tm3 sourceId with
  | none => tm3
  | some sn =>
    let pe := findOrCreateEdge sn.Edges (fun e =>
      decide (e.DestID = destId) &&
        decide (mdLookup e.Metadata "procotol" = some (MetaVal.str "tcp"))) sourceId destId "tcp"
    let tm4 := tmInsert tm3 sourceId { sn with Edges := pe.1 }
    let tm5 := if sourceFound then
        tmUpdate tm4 sourceId (fun n => handleMisconfiguredLabels n sourceApp sourceVer val o.GraphType)
      else tm4
    let tm6 := if destFound then
        tmUpdate tm5 destId (fun n => handleMisconfiguredLabels n destApp destVer val o.GraphType)
      else tm5
    let tm7 := tmUpdate tm6 sourceId
      (fun n => { n with Metadata := addToMetadataValue n.Metadata "tcpOut" val })
    let tm8 := tmUpdate tm7 destId
      (fun n => { n with Metadata := addToMetadataValue n.Metadata "tcpIn" val })
    tmUpdate tm8 sourceId
      (fun n => { n with Edges := edgeAddVal n.Edges pe.2 "tcp" val })

/-- An accepted HTTP telemetry sample: the labels populateTrafficMapHttp
requires (samples missing any of them are skipped before this point) and the
sample value. -/
structure HttpSample where
  sourceWlNs : String
  sourceWl : String
  destSvcNs : String
  destSvcName : String
  destWl : String
  val : ℚ

/-- populateTrafficMapHttp from handlers/graph.go, on the accepted samples:
apps and versions default to Unknown, the response code is fixed at 200, and
with service-node injection a non-service destination with a service label is
split into the workload-to-service and service-to-workload hops, each carrying
the full sample value. -/
def populateTrafficMapHttp (trafficMap : TrafficMap) (vector : List HttpSample)
    (o : Options) : TrafficMap :=
  vector.foldl (fun tm s =>
    let sourceApp := "Unknown"
    let sourceVer := "Unknown"
    let destApp := "Unknown"
    let destVer := "Unknown"
    let code := "200"
    if o.InjectServiceNodes then
      let destNodeType := (graphId s.destSvcNs s.destWl destApp destVer s.destSvcName o.GraphType).2
      if destNodeType ≠ NodeTypeService then
        let tm' := addHttpTraffic tm s.val code s.sourceWlNs s.sourceWl sourceApp sourceVer ""
          s.destSvcNs "" "" "" s.destSvcName o
        addHttpTraffic tm' s.val code s.destSvcNs "" "" "" s.destSvcName
          s.destSvcNs s.destWl destApp destVer s.destSvcName o
      else
        addHttpTraffic tm s.val code s.sourceWlNs s.sourceWl sourceApp sourceVer ""
          s.destSvcNs s.destWl destApp destVer s.destSvcName o
    else
      addHttpTraffic tm s.val code s.sourceWlNs s.sourceWl sourceApp sourceVer ""
        s.destSvcNs s.destWl destApp destVer s.destSvcName o) trafficMap

/-- The (dest id, protocol) duplicate-edge criterion used by the merger and
the reducer: Go compares the two protocol metadata interface values, so two
absent values also match. -/
def edgeKeyMatchB (nsEdge e : Edge) : Bool :=
  decide (nsEdge.DestID = e.DestID) &&
    decide (mdLookup nsEdge.Metadata "protocol" = mdLookup e.Metadata "protocol")

/-- Whether the list already holds an edge matching nsEdge by (dest id,
protocol). -/
def hasEdgeMatch (es : List Edge) (nsEdge : Edge) : Bool :=
  es.any (edgeKeyMatchB nsEdge)

/-- The edge-copying loop of mergeTrafficMaps: copy into the survivor the
losing instance edges whose (dest id, protocol) is not already present,
checking against the growing list. -/
def mergeEdges (survivor losing : List Edge) : List Edge :=
  losing.foldl (fun acc nsEdge =>
    if hasEdgeMatch acc nsEdge then acc else acc ++ [nsEdge]) survivor

/-- One iteration of the mergeTrafficMaps loop for the entry (nsId, nsNode):
insert when the id is new; on a duplicate prefer the instance belonging to the
namespace being merged and copy in the losing instance edges. -/
def mergeStep (ns : String) (tm : TrafficMap) (entry : String × Node) : TrafficMap :=
  match tmLookup tm entry.1 with
  | some node =>
    if entry.2.Namespace = ns then
      tmInsert tm entry.1 { entry.2 with Edges := mergeEdges entry.2.Edges node.Edges }
    else
      tmInsert tm entry.1 { node with Edges := mergeEdges node.Edges entry.2.Edges }
  | none => tmInsert tm entry.1 entry.2

/-- mergeTrafficMaps from handlers/graph.go. -/
def mergeTrafficMaps (trafficMap : TrafficMap) (ns : String)
    (nsTrafficMap : TrafficMap) : TrafficMap :=
  nsTrafficMap.foldl (mergeStep ns) trafficMap

/-- isOutside from handlers/graph.go: outside the unknown sentinel and the
requested namespace set. -/
def isOutside (n : Node) (namespaces : List String) : Bool :=
  if n.Namespace = Unknown then false
  else !(namespaces.contains n.Namespace)

/-- isInaccessible from handlers/graph.go: the namespace is not a key of the
accessible-namespace map. -/
def isInaccessible (n : Node) (accessibleNamespaces : List String) : Bool :=
  !(accessibleNamespaces.contains n.Namespace)

/-- The isOutside metadata read of markOutsideOrInaccessible: present and
true. A present non-bool value would panic in Go and is unreachable. -/
def outsideFlag (md : Metadata) : Bool :=
  match mdLookup md "isOutside" with
  | some (MetaVal.flag b) => b
  | some _ => false
  | none => false

/-- The per-node body of the markOutsideOrInaccessible loop. -/
def markNode (n : Node) (o : Options) : Node :=
  let n1 :=
    if n.NodeType = NodeTypeUnknown then
      { n with Metadata := mdInsert n.Metadata "isInaccessible" (MetaVal.flag true) }
    else if n.NodeType = NodeTypeService then
      if (mdLookup n.Metadata "isServiceEntry").isSome then
        { n with Metadata := mdInsert n.Metadata "isInaccessible" (MetaVal.flag true) }
      else if isOutside n o.Namespaces then
        { n with Metadata := mdInsert n.Metadata "isOutside" (MetaVal.flag true) }
      else n
    else if isOutside n o.Namespaces then
      { n with Metadata := mdInsert n.Metadata "isOutside" (MetaVal.flag true) }
    else n
  if outsideFlag n1.Metadata then
    if (mdLookup n1.Metadata "isInaccessible").isNone ∧ isInaccessible n1 o.AccessibleNamespaces then
      { n1 with Metadata := mdInsert n1.Metadata "isInaccessible" (MetaVal.flag true) }
    else n1
  else n1

/-- markOutsideOrInaccessible from handlers/graph.go. -/
def markOutsideOrInaccessible (trafficMap : TrafficMap) (o : Options) : TrafficMap :=
  trafficMap.map (fun p => (p.1, markNode p.2 o))

/-- checkNodeType from handlers/graph.go: graph.Error panics on a node-type
mismatch during reduction; the panic is an Except error in the embedding. -/
def checkNodeType (expected : String) (n : Node) : Except String Unit :=
  if expected ≠ n.NodeType then Except.error "Expected nodeType" else Except.ok ()

/-- The float64 type assertion the Go code applies to metadata values read
during reduction: a missing or non-numeric value panics. -/
def metaNum : Option MetaVal → Except String ℚ
  | some (MetaVal.num v) => Except.ok v
  | _ => Except.error "type assertion failed"

/-- The optional response-code bucket accumulation of addServiceGraphTraffic:
if the source edge carries the key, add its value into the target edge. -/
def addOptBucket (target source : Edge) (k : String) : Except String Edge :=
  match mdLookup source.Metadata k with
  | none => Except.ok target
  | some v => do
    let x ← metaNum (some v)
    Except.ok { target with Metadata := addToMetadataValue target.Metadata k x }

/-- The responseTime merge at the end of addServiceGraphTraffic: response time
is not a counter, so it is folded in as a running average. -/
def addRT (target source : Edge) : Except String Edge :=
  match mdLookup source.Metadata "responseTime" with
  | none => Except.ok target
  | some v => do
    let x ← metaNum (some v)
    Except.ok { target with Metadata := averageMetadataValue target.Metadata "responseTime" x }

/-- addServiceGraphTraffic from handlers/graph.go: dispatch on the target edge
protocol metadata; http sums http and the optional 3xx/4xx/5xx buckets, tcp
sums tcp, and any other protocol value is a fatal error (graph.Error panic)
that accumulates nothing.  The responseTime average runs after the switch. -/
def addServiceGraphTraffic (target source : Edge) : Except String Edge := do
  let protocol := mdLookup target.Metadata "protocol"
  let t ←
    if protocol = some (MetaVal.str "http") then do
      let httpVal ← metaNum (mdLookup source.Metadata "http")
      let t0 := { target with Metadata := addToMetadataValue target.Metadata "http" httpVal }
      let t1 ← addOptBucket t0 source "http3xx"
      let t2 ← addOptBucket t1 source "http4xx"
      addOptBucket t2 source "http5xx"
    else if protocol = some (MetaVal.str "tcp") then do
      let tcpVal ← metaNum (mdLookup source.Metadata "tcp")
      Except.ok { target with Metadata := addToMetadataValue target.Metadata "tcp" tcpVal }
    else
      Except.error "Unexpected edge protocol"
  addRT t source

/-- Follow an edge pointer to its destination node.  Go dereferences the Dest
pointer directly; by the ownership invariant of spec 3 every edge target lives
in the same TrafficMap, so the embedding looks the id up there. -/
def getNode (tm : TrafficMap) (id : String) : Except String Node :=
  match tmLookup tm id with
  | some n => Except.ok n
  | none => Except.error "node not found"

/-- The inner accumulation of reduceToServiceGraph: search the rebuilt edge
list for a (dest id, protocol) match; append the service edge when there is
none, otherwise merge its counters into the first match. -/
def addOrMergeEdge : List Edge → Edge → (Edge → Bool) → Except String (List Edge)
  | [], se, _ => Except.ok [se]
  | e :: rest, se, p =>
    if p e then do
      let e' ← addServiceGraphTraffic e se
      Except.ok (e' :: rest)
    else do
      let rest' ← addOrMergeEdge rest se p
      Except.ok (e :: rest')

/-- The edge-rebuilding walk of reduceToServiceGraph for one service node:
each original edge must reach a workload, each of whose edges must reach a
child service; the service-to-service edges are adopted or summed. -/
def reduceServiceNodeEdges (tm : TrafficMap) (workloadEdges : List Edge) :
    Except String (List Edge) :=
  workloadEdges.foldlM (fun newEdges workloadEdge => do
    let workload ← getNode tm workloadEdge.DestID
    let _ ← checkNodeType NodeTypeWorkload workload
    workload.Edges.foldlM (fun acc serviceEdge => do
      let childService ← getNode tm serviceEdge.DestID
      let _ ← checkNodeType NodeTypeService childService
      addOrMergeEdge acc serviceEdge (fun e =>
        decide (childService.ID = e.DestID) &&
          decide (mdLookup serviceEdge.Metadata "protocol" = mdLookup e.Metadata "protocol")))
      newEdges) []

/-- reduceToServiceGraph from handlers/graph.go: keep service nodes and root
non-service nodes, replacing each service node edge list by the two-hop walk
through the dropped intermediate workloads. -/
def reduceToServiceGraph (trafficMap : TrafficMap) : Except String TrafficMap :=
  trafficMap.foldlM (fun reduced p =>
    if p.2.NodeType ≠ NodeTypeService then
      if mdLookup p.2.Metadata "isRoot" = some (MetaVal.flag true) then
        Except.ok (tmInsert reduced p.1 p.2)
      else
        Except.ok reduced
    else do
      let newEdges ← reduceServiceNodeEdges trafficMap p.2.Edges
      Except.ok (tmInsert reduced p.1 { p.2 with Edges := newEdges })) NewTrafficMap

/-- DefaultQuantile from graph/appender/response_time.go. -/
def DefaultQuantile : ℚ := 95 / 100

/-- The quantile-validity check at the top of the response-time appender
appendGraph: an out-of-range quantile is replaced by the default, and the
bound the Go code tests is 0.0 to 100.0. -/
def effectiveQuantile (q : ℚ) : ℚ :=
  if q ≤ 0 ∨ q ≥ 100 then DefaultQuantile else q

/-- The response-time lookup map built by the appender, Go map[string]float64. -/
abbrev ResponseTimeMap := List (String × ℚ)

/-- Go map read responseTimeMap[k] without the ok flag: absent keys read as
the float64 zero value. -/
def rtLookup : ResponseTimeMap → String → Option ℚ
  | [], _ => none
  | (k', v) :: rest, k => if k' = k then some v else rtLookup rest k

/-- Go map write responseTimeMap[k] = v. -/
def rtInsert : ResponseTimeMap → String → ℚ → ResponseTimeMap
  | [], k, v => [(k, v)]
  | (k', v') :: rest, k, v =>
    if k' = k then (k, v) :: rest else (k', v') :: rtInsert rest k v

/-- averageResponseTime from graph/appender/response_time.go: the same
running-average scheme as averageMetadataValue, on the response-time map. -/
def averageResponseTime (responseTimeMap : ResponseTimeMap) (key : String) (val : ℚ) :
    ResponseTimeMap :=
  let keyTotal := key ++ "_total"
  let keyCount := key ++ "_count"
  let total : ℚ :=
    match rtLookup responseTimeMap keyTotal with
    | some prevTotal => val + prevTotal
    | none => val
  let count : ℚ :=
    match rtLookup responseTimeMap keyCount with
    | some prevCount => 1 + prevCount
    | none => 1
  rtInsert (rtInsert (rtInsert responseTimeMap keyTotal total) keyCount count)
    key (total / count)

/-- The per-edge assignment of applyResponseTime: the key is the Go format
string of the source and dest ids separated by one space, and an absent key
reads as the float64 zero value. -/
def applyResponseTimeEdge (responseTimeMap : ResponseTimeMap) (e : Edge) : Edge :=
  let key := e.SourceID ++ " " ++ e.DestID
  let v := MetaVal.num ((rtLookup responseTimeMap key).getD 0)
  { e with Metadata := mdInsert e.Metadata "responseTime" v }

/-- applyResponseTime from graph/appender/response_time.go: assign the map
lookup result, 0 when the key is absent, to every edge of every node,
overwriting any prior value. -/
def applyResponseTime (trafficMap : TrafficMap) (responseTimeMap : ResponseTimeMap) :
    TrafficMap :=
  trafficMap.map (fun p =>
    (p.1, { p.2 with Edges := p.2.Edges.map (applyResponseTimeEdge responseTimeMap) }))

/-! ### Basic lemmas about the map operations -/

theorem mdLookup_mdInsert_self (md : Metadata) (k : String) (v : MetaVal) :
    mdLookup (mdInsert md k v) k = some v := by
  induction md with
  | nil => simp [mdInsert, mdLookup]
  | cons p rest ih =>
    by_cases h : p.1 = k
    · simp [mdInsert, mdLookup, h]
    · simp [mdInsert, mdLookup, h, ih]

theorem mdLookup_mdInsert_ne (md : Metadata) (k k' : String) (v : MetaVal)
    (h : k ≠ k') : mdLookup (mdInsert md k v) k' = mdLookup md k' := by
  induction md with
  | nil => simp [mdInsert, mdLookup, h]
  | cons p rest ih =>
    by_cases hp : p.1 = k
    · subst hp
      simp [mdInsert, mdLookup, h]
    · simp only [mdInsert, hp, if_false, mdLookup]
      by_cases hp' : p.1 = k'
      · simp [hp']
      · simp [hp', ih]

theorem tmLookup_tmInsert_self (tm : TrafficMap) (k : String) (n : Node) :
    tmLookup (tmInsert tm k n) k = some n := by
  induction tm with
  | nil => simp [tmInsert, tmLookup]
  | cons p rest ih =>
    by_cases h : p.1 = k
    · simp [tmInsert, tmLookup, h]
    · simp [tmInsert, tmLookup, h, ih]

theorem tmLookup_tmInsert_ne (tm : TrafficMap) (k k' : String) (n : Node)
    (h : k ≠ k') : tmLookup (tmInsert tm k n) k' = tmLookup tm k' := by
  induction tm with
  | nil => simp [tmInsert, tmLookup, h]
  | cons p rest ih =>
    by_cases hp : p.1 = k
    · subst hp
      simp [tmInsert, tmLookup, h]
    · simp only [tmInsert, hp, if_false, tmLookup]
      by_cases hp' : p.1 = k'
      · simp [hp']
      · simp [hp', ih]

theorem tmInsert_lookup_self (tm : TrafficMap) (k : String) (n : Node)
    (h : tmLookup tm k = some n) : tmInsert tm k n = tm := by
  induction tm with
  | nil => simp [tmLookup] at h
  | cons p rest ih =>
    by_cases hp : p.1 = k
    · simp only [tmLookup, hp, if_pos] at h
      simp only [tmInsert, hp, if_pos]
      cases p with
      | mk a b => simp_all
    · simp only [tmLookup, hp, if_neg, not_false_iff] at h
      simp [tmInsert, hp, ih h]

theorem tmLookup_tmUpdate_self (tm : TrafficMap) (k : String) (f : Node → Node) :
    tmLookup (tmUpdate tm k f) k = (tmLookup tm k).map f := by
  induction tm with
  | nil => simp [tmUpdate, tmLookup]
  | cons p rest ih =>
    by_cases h : p.1 = k
    · simp [tmUpdate, tmLookup, h]
    · simp [tmUpdate, tmLookup, h, ih]

theorem tmLookup_tmUpdate_ne (tm : TrafficMap) (k k' : String) (f : Node → Node)
    (h : k ≠ k') : tmLookup (tmUpdate tm k f) k' = tmLookup tm k' := by
  induction tm with
  | nil => simp [tmUpdate, tmLookup]
  | cons p rest ih =>
    by_cases hp : p.1 = k
    · subst hp
      simp [tmUpdate, tmLookup, h]
    · simp only [tmUpdate, hp, if_false, tmLookup]
      by_cases hp' : p.1 = k'
      · simp [hp']
      · simp [hp', ih]

theorem tmLookup_tmUpdate_isSome (tm : TrafficMap) (k k' : String) (f : Node → Node) :
    (tmLookup (tmUpdate tm k f) k').isSome = (tmLookup tm k').isSome := by
  by_cases h : k = k'
  · subst h
    rw [tmLookup_tmUpdate_self]
    cases tmLookup tm k <;> simp
  · rw [tmLookup_tmUpdate_ne tm k k' f h]

/-! ### C7: quantile validity check -/

/-- C7 counterexample: the claim says a quantile outside the open unit
interval (0,1), such as 50, is replaced by the default 0.95; but the Go check
only rejects values at or below 0 or at or above 100, so the quantile 50 is
used as given and differs from the default. -/
theorem c7_counterexample_quantile_fifty :
    effectiveQuantile 50 = 50 ∧ effectiveQuantile 50 ≠ DefaultQuantile := by
  constructor
  · simp only [effectiveQuantile]
    norm_num
  · simp only [effectiveQuantile, DefaultQuantile]
    norm_num

/-- C7 amended: the response-time appender falls back to the default quantile
0.95 exactly when the configured quantile is at most 0 or at least 100; any
quantile strictly between 0 and 100 (in particular every quantile strictly
inside the unit interval, and also 50) is used as given. -/
theorem c7_quantile_fallback (q : ℚ) :
    (q ≤ 0 ∨ 100 ≤ q → effectiveQuantile q = DefaultQuantile) ∧
      (0 < q ∧ q < 100 → effectiveQuantile q = q) := by
  constructor
  · intro h
    simp only [effectiveQuantile, ge_iff_le]
    rw [if_pos]
    exact h
  · intro h
    simp only [effectiveQuantile, ge_iff_le]
    rw [if_neg]
    push_neg
    exact ⟨h.1, h.2⟩

/-- C7 witness: the fallback theorem applied at the concrete quantiles 200
(out of range, replaced by the default) and 1/2 (in range, kept). -/
theorem c7_quantile_fallback_witness :
    effectiveQuantile 200 = DefaultQuantile ∧ effectiveQuantile (1 / 2) = 1 / 2 := by
  constructor
  · exact (c7_quantile_fallback 200).1 (Or.inr (by norm_num))
  · exact (c7_quantile_fallback (1 / 2)).2 (by norm_num)

/-! ### C9: unknown nodes are marked inaccessible -/

theorem tmLookup_markOutsideOrInaccessible (tm : TrafficMap) (o : Options) (id : String) :
    tmLookup (markOutsideOrInaccessible tm o) id = (tmLookup tm id).map (fun n => markNode n o) := by
  induction tm with
  | nil => simp [markOutsideOrInaccessible, tmLookup]
  | cons p rest ih =>
    by_cases h : p.1 = id
    · simp [markOutsideOrInaccessible, tmLookup, h]
    · simpa [markOutsideOrInaccessible, tmLookup, h] using ih

theorem markNode_unknown (n : Node) (o : Options) (hu : n.NodeType = NodeTypeUnknown) :
    markNode n o = { n with Metadata := mdInsert n.Metadata "isInaccessible" (MetaVal.flag true) } := by
  simp only [markNode, hu, if_pos]
  set n1 : Node := { n with Metadata := mdInsert n.Metadata "isInaccessible" (MetaVal.flag true) } with hn1
  have hacc : mdLookup n1.Metadata "isInaccessible" = some (MetaVal.flag true) := by
    rw [hn1]
    exact mdLookup_mdInsert_self n.Metadata "isInaccessible" (MetaVal.flag true)
  by_cases hflag : outsideFlag n1.Metadata
  · rw [if_pos hflag, if_neg]
    simp [hacc]
  · rw [if_neg hflag]

/-- C9: markOutsideOrInaccessible marks every node of kind Unknown with
isInaccessible = true, regardless of the requested and accessible namespace
sets, and leaves its isOutside metadata exactly as it was. -/
theorem c9_unknown_marked_inaccessible (tm : TrafficMap) (o : Options) (id : String) (n : Node)
    (h : tmLookup tm id = some n) (hu : n.NodeType = NodeTypeUnknown) :
    ∃ m, tmLookup (markOutsideOrInaccessible tm o) id = some m ∧
      mdLookup m.Metadata "isInaccessible" = some (MetaVal.flag true) ∧
      mdLookup m.Metadata "isOutside" = mdLookup n.Metadata "isOutside" := by
  refine ⟨markNode n o, ?_, ?_, ?_⟩
  · rw [tmLookup_markOutsideOrInaccessible, h]
    rfl
  · rw [markNode_unknown n o hu]
    exact mdLookup_mdInsert_self n.Metadata "isInaccessible" (MetaVal.flag true)
  · rw [markNode_unknown n o hu]
    exact mdLookup_mdInsert_ne n.Metadata "isInaccessible" "isOutside" (MetaVal.flag true) (by decide)

/-- C9 witness: a concrete one-node map holding an unknown-kind node with a
pre-set isOutside flag, in a request whose namespace sets would otherwise
leave it alone. -/
theorem c9_unknown_marked_inaccessible_witness :
    ∃ m, tmLookup (markOutsideOrInaccessible
        [("unknown", Node.mk "unknown" NodeTypeUnknown "unknown" "" "" "" "" []
          [("isOutside", MetaVal.flag false)])]
        (Options.mk GraphTypeWorkload false ["ns1"] ["unknown", "ns1"])) "unknown" = some m ∧
      mdLookup m.Metadata "isInaccessible" = some (MetaVal.flag true) ∧
      mdLookup m.Metadata "isOutside" =
        mdLookup [("isOutside", MetaVal.flag false)] "isOutside" := by
  exact c9_unknown_marked_inaccessible _ _ "unknown"
    (Node.mk "unknown" NodeTypeUnknown "unknown" "" "" "" "" [] [("isOutside", MetaVal.flag false)])
    rfl rfl

/-! ### C10: the response-time appender touches every edge -/

theorem tmLookup_applyResponseTime (tm : TrafficMap) (rtm : ResponseTimeMap) (id : String) :
    tmLookup (applyResponseTime tm rtm) id =
      (tmLookup tm id).map (fun n =>
        { n with Edges := n.Edges.map (applyResponseTimeEdge rtm) }) := by
  induction tm with
  | nil => simp [applyResponseTime, tmLookup]
  | cons p rest ih =>
    by_cases h : p.1 = id
    · simp [applyResponseTime, tmLookup, h]
    · simpa [applyResponseTime, tmLookup, h] using ih

/-- C10: after applyResponseTime, every edge of every node carries a
responseTime metadata entry equal to the lookup of its source-dest key in the
response-time map, with 0 when the key has no data; the value is written
unconditionally, overwriting any prior entry. -/
theorem c10_every_edge_gets_response_time (tm : TrafficMap) (rtm : ResponseTimeMap)
    (id : String) (m : Node) (e : Edge)
    (h : tmLookup (applyResponseTime tm rtm) id = some m) (he : e ∈ m.Edges) :
    mdLookup e.Metadata "responseTime" =
      some (MetaVal.num ((rtLookup rtm (e.SourceID ++ " " ++ e.DestID)).getD 0)) := by
  rw [tmLookup_applyResponseTime] at h
  cases hn : tmLookup tm id with
  | none => rw [hn] at h; simp at h
  | some n =>
    rw [hn] at h
    rw [Option.map_some'] at h
    have hm := Option.some.inj h
    rw [← hm] at he
    simp only [List.mem_map] at he
    obtain ⟨e0, _, he0⟩ := he
    subst he0
    simp only [applyResponseTimeEdge]
    exact mdLookup_mdInsert_self _ _ _

/-- C10 witness: one node with a single a-to-b edge and response-time data 7
under the key of that edge; the edge ends up carrying responseTime 7. -/
theorem c10_every_edge_gets_response_time_witness :
    mdLookup (Edge.mk "a" "b" [("responseTime", MetaVal.num 7)]).Metadata "responseTime" =
      some (MetaVal.num ((rtLookup [("a b", 7)] ("a" ++ " " ++ "b")).getD 0)) :=
  c10_every_edge_gets_response_time
    [("a", Node.mk "a" NodeTypeWorkload "ns" "a" "" "" "" [Edge.mk "a" "b" []] [])]
    [("a b", 7)] "a"
    (Node.mk "a" NodeTypeWorkload "ns" "a" "" "" "" [Edge.mk "a" "b" [("responseTime", MetaVal.num 7)]] [])
    (Edge.mk "a" "b" [("responseTime", MetaVal.num 7)])
    rfl (List.mem_singleton.mpr rfl)

/-! ### C4: running averages -/

theorem key_ne_total (k : String) : k ≠ k ++ "_total" := by
  intro h
  have h1 := congrArg String.length h
  rw [String.length_append] at h1
  have h2 : "_total".length = 0 := by omega
  exact absurd h2 (by decide)

theorem key_ne_count (k : String) : k ≠ k ++ "_count" := by
  intro h
  have h1 := congrArg String.length h
  rw [String.length_append] at h1
  have h2 : "_count".length = 0 := by omega
  exact absurd h2 (by decide)

theorem total_ne_count (k : String) : k ++ "_total" ≠ k ++ "_count" := by
  intro h
  have h2 := congrArg String.data h
  rw [String.data_append, String.data_append] at h2
  exact absurd (List.append_cancel_left h2) (by decide)

theorem averageMetadataValue_lookups (md : Metadata) (k : String) (v t c : ℚ)
    (ht : mdLookup md (k ++ "_total") = some (MetaVal.num t))
    (hc : mdLookup md (k ++ "_count") = some (MetaVal.num c)) :
    mdLookup (averageMetadataValue md k v) (k ++ "_total") = some (MetaVal.num (v + t)) ∧
      mdLookup (averageMetadataValue md k v) (k ++ "_count") = some (MetaVal.num (1 + c)) ∧
      mdLookup (averageMetadataValue md k v) k = some (MetaVal.num ((v + t) / (1 + c))) := by
  simp only [averageMetadataValue, ht, hc]
  refine ⟨?_, ?_, ?_⟩
  · rw [mdLookup_mdInsert_ne _ k _ _ (key_ne_total k),
      mdLookup_mdInsert_ne _ _ _ _ (total_ne_count k).symm, mdLookup_mdInsert_self]
  · rw [mdLookup_mdInsert_ne _ k _ _ (key_ne_count k), mdLookup_mdInsert_self]
  · rw [mdLookup_mdInsert_self]

theorem averageMetadataValue_fold_inv (k : String) (vs : List ℚ) (md : Metadata) (t c : ℚ)
    (ht : mdLookup md (k ++ "_total") = some (MetaVal.num t))
    (hc : mdLookup md (k ++ "_count") = some (MetaVal.num c)) :
    mdLookup (vs.foldl (fun m v => averageMetadataValue m k v) md) (k ++ "_total") =
        some (MetaVal.num (t + vs.sum)) ∧
      mdLookup (vs.foldl (fun m v => averageMetadataValue m k v) md) (k ++ "_count") =
        some (MetaVal.num (c + vs.length)) ∧
      (vs ≠ [] →
        mdLookup (vs.foldl (fun m v => averageMetadataValue m k v) md) k =
          some (MetaVal.num ((t + vs.sum) / (c + vs.length)))) := by
  induction vs generalizing md t c with
  | nil => simp [ht, hc]
  | cons v rest ih =>
    obtain ⟨ht', hc', hk'⟩ := averageMetadataValue_lookups md k v t c ht hc
    obtain ⟨ih1, ih2, ih3⟩ := ih (averageMetadataValue md k v) (v + t) (1 + c) ht' hc'
    refine ⟨?_, ?_, ?_⟩
    · rw [List.foldl_cons, ih1]
      simp only [Option.some.injEq, MetaVal.num.injEq, List.sum_cons, List.length_cons]
      push_cast
      ring
    · rw [List.foldl_cons, ih2]
      simp only [Option.some.injEq, MetaVal.num.injEq, List.sum_cons, List.length_cons]
      push_cast
      ring
    · intro _
      rcases Decidable.em (rest = []) with hr | hr
      · subst hr
        simp only [List.foldl_cons, List.foldl_nil]
        rw [hk']
        simp only [Option.some.injEq, MetaVal.num.injEq, List.sum_cons, List.length_cons,
          List.sum_nil, List.length_nil]
        push_cast
        ring_nf
      · rw [List.foldl_cons, ih3 hr]
        simp only [Option.some.injEq, MetaVal.num.injEq, List.sum_cons, List.length_cons]
        push_cast
        ring_nf

theorem rtLookup_rtInsert_self (m : ResponseTimeMap) (k : String) (v : ℚ) :
    rtLookup (rtInsert m k v) k = some v := by
  induction m with
  | nil => simp [rtInsert, rtLookup]
  | cons p rest ih =>
    by_cases h : p.1 = k
    · simp [rtInsert, rtLookup, h]
    · simp [rtInsert, rtLookup, h, ih]

theorem rtLookup_rtInsert_ne (m : ResponseTimeMap) (k k' : String) (v : ℚ)
    (h : k ≠ k') : rtLookup (rtInsert m k v) k' = rtLookup m k' := by
  induction m with
  | nil => simp [rtInsert, rtLookup, h]
  | cons p rest ih =>
    by_cases hp : p.1 = k
    · subst hp
      simp [rtInsert, rtLookup, h]
    · simp only [rtInsert, hp, if_false, rtLookup]
      by_cases hp' : p.1 = k'
      · simp [hp']
      · simp [hp', ih]

theorem averageResponseTime_lookups (m : ResponseTimeMap) (k : String) (v t c : ℚ)
    (ht : rtLookup m (k ++ "_total") = some t)
    (hc : rtLookup m (k ++ "_count") = some c) :
    rtLookup (averageResponseTime m k v) (k ++ "_total") = some (v + t) ∧
      rtLookup (averageResponseTime m k v) (k ++ "_count") = some (1 + c) ∧
      rtLookup (averageResponseTime m k v) k = some ((v + t) / (1 + c)) := by
  simp only [averageResponseTime, ht, hc]
  refine ⟨?_, ?_, ?_⟩
  · rw [rtLookup_rtInsert_ne _ k _ _ (key_ne_total k),
      rtLookup_rtInsert_ne _ _ _ _ (total_ne_count k).symm, rtLookup_rtInsert_self]
  · rw [rtLookup_rtInsert_ne _ k _ _ (key_ne_count k), rtLookup_rtInsert_self]
  · rw [rtLookup_rtInsert_self]

theorem averageResponseTime_fold_inv (k : String) (vs : List ℚ) (m : ResponseTimeMap) (t c : ℚ)
    (ht : rtLookup m (k ++ "_total") = some t)
    (hc : rtLookup m (k ++ "_count") = some c) :
    rtLookup (vs.foldl (fun m' v => averageResponseTime m' k v) m) (k ++ "_total") =
        some (t + vs.sum) ∧
      rtLookup (vs.foldl (fun m' v => averageResponseTime m' k v) m) (k ++ "_count") =
        some (c + vs.length) ∧
      (vs ≠ [] →
        rtLookup (vs.foldl (fun m' v => averageResponseTime m' k v) m) k =
          some ((t + vs.sum) / (c + vs.length))) := by
  induction vs generalizing m t c with
  | nil => simp [ht, hc]
  | cons v rest ih =>
    obtain ⟨ht', hc', hk'⟩ := averageResponseTime_lookups m k v t c ht hc
    obtain ⟨ih1, ih2, ih3⟩ := ih (averageResponseTime m k v) (v + t) (1 + c) ht' hc'
    refine ⟨?_, ?_, ?_⟩
    · rw [List.foldl_cons, ih1]
      simp only [Option.some.injEq, List.sum_cons, List.length_cons]
      ring
    · rw [List.foldl_cons, ih2]
      simp only [Option.some.injEq, List.sum_cons, List.length_cons]
      push_cast
      ring
    · intro _
      rcases Decidable.em (rest = []) with hr | hr
      · subst hr
        simp only [List.foldl_cons, List.foldl_nil]
        rw [hk']
        simp only [Option.some.injEq, List.sum_cons, List.length_cons, List.sum_nil,
          List.length_nil]
        push_cast
        ring_nf
      · rw [List.foldl_cons, ih3 hr]
        simp only [Option.some.injEq, List.sum_cons, List.length_cons]
        push_cast
        ring_nf

/-- C4: running-average correctness.  Starting from states with no shadow
keys for k, applying values v1..vn through averageMetadataValue (edge or node
metadata) and averageResponseTime (the appender response-time map) leaves at k
the value (v1+...+vn)/n, at k_total the sum v1+...+vn and at k_count the
count n. -/
theorem c4_running_average (k : String) (vs : List ℚ) (md : Metadata) (m : ResponseTimeMap)
    (hn : vs ≠ [])
    (hmdt : mdLookup md (k ++ "_total") = none)
    (hmdc : mdLookup md (k ++ "_count") = none)
    (hmt : rtLookup m (k ++ "_total") = none)
    (hmc : rtLookup m (k ++ "_count") = none) :
    (mdLookup (vs.foldl (fun md' v => averageMetadataValue md' k v) md) k =
        some (MetaVal.num (vs.sum / vs.length)) ∧
      mdLookup (vs.foldl (fun md' v => averageMetadataValue md' k v) md) (k ++ "_total") =
        some (MetaVal.num vs.sum) ∧
      mdLookup (vs.foldl (fun md' v => averageMetadataValue md' k v) md) (k ++ "_count") =
        some (MetaVal.num vs.length)) ∧
      (rtLookup (vs.foldl (fun m' v => averageResponseTime m' k v) m) k =
        some (vs.sum / vs.length) ∧
      rtLookup (vs.foldl (fun m' v => averageResponseTime m' k v) m) (k ++ "_total") =
        some vs.sum ∧
      rtLookup (vs.foldl (fun m' v => averageResponseTime m' k v) m) (k ++ "_count") =
        some vs.length) := by
  cases vs with
  | nil => exact absurd rfl hn
  | cons v rest =>
    constructor
    · have hfirst : averageMetadataValue md k v =
          mdInsert (mdInsert (mdInsert md (k ++ "_total") (MetaVal.num v)) (k ++ "_count")
            (MetaVal.num 1)) k (MetaVal.num (v / 1)) := by
        simp only [averageMetadataValue, hmdt, hmdc]
      have ht1 : mdLookup (averageMetadataValue md k v) (k ++ "_total") =
          some (MetaVal.num v) := by
        rw [hfirst, mdLookup_mdInsert_ne _ k _ _ (key_ne_total k),
          mdLookup_mdInsert_ne _ _ _ _ (total_ne_count k).symm, mdLookup_mdInsert_self]
      have hc1 : mdLookup (averageMetadataValue md k v) (k ++ "_count") =
          some (MetaVal.num 1) := by
        rw [hfirst, mdLookup_mdInsert_ne _ k _ _ (key_ne_count k), mdLookup_mdInsert_self]
      obtain ⟨i1, i2, i3⟩ :=
        averageMetadataValue_fold_inv k rest (averageMetadataValue md k v) v 1 ht1 hc1
      rcases Decidable.em (rest = []) with hr | hr
      · subst hr
        refine ⟨?_, ?_, ?_⟩
        · simp only [List.foldl_cons, List.foldl_nil, hfirst, mdLookup_mdInsert_self,
            List.sum_cons, List.sum_nil, List.length_cons, List.length_nil]
          norm_num
        · simpa using i1
        · simpa using i2
      · refine ⟨?_, ?_, ?_⟩
        · rw [List.foldl_cons, i3 hr]
          simp only [Option.some.injEq, MetaVal.num.injEq, List.sum_cons, List.length_cons]
          push_cast
          ring_nf
        · rw [List.foldl_cons, i1]
          simp only [Option.some.injEq, MetaVal.num.injEq, List.sum_cons, List.length_cons]
        · rw [List.foldl_cons, i2]
          congr 2
          rw [List.length_cons]
          push_cast
          ring
    · have hfirst : averageResponseTime m k v =
          rtInsert (rtInsert (rtInsert m (k ++ "_total") v) (k ++ "_count") 1) k (v / 1) := by
        simp only [averageResponseTime, hmt, hmc]
      have ht1 : rtLookup (averageResponseTime m k v) (k ++ "_total") = some v := by
        rw [hfirst, rtLookup_rtInsert_ne _ k _ _ (key_ne_total k),
          rtLookup_rtInsert_ne _ _ _ _ (total_ne_count k).symm, rtLookup_rtInsert_self]
      have hc1 : rtLookup (averageResponseTime m k v) (k ++ "_count") = some 1 := by
        rw [hfirst, rtLookup_rtInsert_ne _ k _ _ (key_ne_count k), rtLookup_rtInsert_self]
      obtain ⟨i1, i2, i3⟩ :=
        averageResponseTime_fold_inv k rest (averageResponseTime m k v) v 1 ht1 hc1
      rcases Decidable.em (rest = []) with hr | hr
      · subst hr
        refine ⟨?_, ?_, ?_⟩
        · simp only [List.foldl_cons, List.foldl_nil, hfirst, rtLookup_rtInsert_self,
            List.sum_cons, List.sum_nil, List.length_cons, List.length_nil]
          norm_num
        · simpa using i1
        · simpa using i2
      · refine ⟨?_, ?_, ?_⟩
        · rw [List.foldl_cons, i3 hr]
          simp only [Option.some.injEq, List.sum_cons, List.length_cons]
          push_cast
          ring_nf
        · rw [List.foldl_cons, i1]
          simp only [Option.some.injEq, List.sum_cons, List.length_cons]
        · rw [List.foldl_cons, i2]
          congr 1
          rw [List.length_cons]
          push_cast
          ring

/-- C4 witness: the running-average theorem applied to the values 3, 5 under
the key responseTime, starting from empty maps. -/
theorem c4_running_average_witness :
    (mdLookup (([3, 5] : List ℚ).foldl
          (fun md' v => averageMetadataValue md' "responseTime" v) []) "responseTime" =
        some (MetaVal.num (([3, 5] : List ℚ).sum / (([3, 5] : List ℚ).length : ℚ))) ∧
      mdLookup (([3, 5] : List ℚ).foldl
          (fun md' v => averageMetadataValue md' "responseTime" v) []) ("responseTime" ++ "_total") =
        some (MetaVal.num ([3, 5] : List ℚ).sum) ∧
      mdLookup (([3, 5] : List ℚ).foldl
          (fun md' v => averageMetadataValue md' "responseTime" v) []) ("responseTime" ++ "_count") =
        some (MetaVal.num ((([3, 5] : List ℚ).length : ℚ)))) ∧
      (rtLookup (([3, 5] : List ℚ).foldl
          (fun m' v => averageResponseTime m' "responseTime" v) []) "responseTime" =
        some (([3, 5] : List ℚ).sum / (([3, 5] : List ℚ).length : ℚ)) ∧
      rtLookup (([3, 5] : List ℚ).foldl
          (fun m' v => averageResponseTime m' "responseTime" v) []) ("responseTime" ++ "_total") =
        some ([3, 5] : List ℚ).sum ∧
      rtLookup (([3, 5] : List ℚ).foldl
          (fun m' v => averageResponseTime m' "responseTime" v) []) ("responseTime" ++ "_count") =
        some ((([3, 5] : List ℚ).length : ℚ))) :=
  c4_running_average "responseTime" [3, 5] [] [] (by simp) rfl rfl rfl rfl

/-! ### C8: unexpected protocol is a fatal error -/

/-- C8: when the target edge protocol metadata is neither the string http nor
the string tcp (including a missing or non-string value), addServiceGraphTraffic
stops with the structured unexpected-protocol error and accumulates nothing. -/
theorem c8_unexpected_protocol_fatal (target source : Edge)
    (h1 : mdLookup target.Metadata "protocol" ≠ some (MetaVal.str "http"))
    (h2 : mdLookup target.Metadata "protocol" ≠ some (MetaVal.str "tcp")) :
    addServiceGraphTraffic target source = Except.error "Unexpected edge protocol" := by
  simp only [addServiceGraphTraffic, if_neg h1, if_neg h2]
  rfl

/-- C8 witness: an edge whose protocol metadata reads grpc. -/
theorem c8_unexpected_protocol_fatal_witness :
    addServiceGraphTraffic (Edge.mk "a" "b" [("protocol", MetaVal.str "grpc")])
        (Edge.mk "a" "b" []) = Except.error "Unexpected edge protocol" :=
  c8_unexpected_protocol_fatal _ _ (by decide) (by decide)

/-! ### C1: at most one edge per (source, dest, protocol) -/

/-- C1: evaluating the builder at the failing input.  Two identical accepted
TCP samples from workload a/x to workload b/y leave the source node with two
edges for the same (dest id, protocol tcp) pair, because the Go duplicate-edge
lookup in addTcpTraffic reads the misspelled metadata key procotol and never
matches; the same two samples over HTTP are accumulated into a single reused
edge, as the claim and the spec describe. -/
theorem c1_tcp_duplicate_edge_code_bug :
    ((tmLookup (addTcpTraffic (addTcpTraffic NewTrafficMap 5 "a" "x" "" "" "" "b" "y" "" "" ""
            (Options.mk GraphTypeWorkload false [] [])) 5 "a" "x" "" "" "" "b" "y" "" "" ""
            (Options.mk GraphTypeWorkload false [] [])) "workload|a|x").map
        (fun n => n.Edges.countP (fun e => decide (e.DestID = "workload|b|y") &&
          decide (mdLookup e.Metadata "protocol" = some (MetaVal.str "tcp"))))) = some 2 ∧
      ((tmLookup (addHttpTraffic (addHttpTraffic NewTrafficMap 5 "200" "a" "x" "" "" "" "b" "y" "" "" ""
            (Options.mk GraphTypeWorkload false [] [])) 5 "200" "a" "x" "" "" "" "b" "y" "" "" ""
            (Options.mk GraphTypeWorkload false [] [])) "workload|a|x").map
        (fun n => n.Edges.countP (fun e => decide (e.DestID = "workload|b|y") &&
          decide (mdLookup e.Metadata "protocol" = some (MetaVal.str "http"))))) = some 1 := by
  decide

/-! ### C5: reduction conservation -/

/-- C5: reducing Service s1 to Workload w to Service s2 with http traffic 100
yields exactly one s1-to-s2 edge carrying http 100 (the adopted edge object is
the workload edge, so its recorded source id stays w); with a second workload
path through w2 carrying 50, the single reduced edge carries the summed
http 150. -/
theorem c5_reduction_conservation :
    reduceToServiceGraph
        [("s1", Node.mk "s1" NodeTypeService "ns" "" "" "" "svc1"
            [Edge.mk "s1" "w" [("protocol", MetaVal.str "http"), ("http", MetaVal.num 100)]] []),
          ("w", Node.mk "w" NodeTypeWorkload "ns" "w" "" "" ""
            [Edge.mk "w" "s2" [("protocol", MetaVal.str "http"), ("http", MetaVal.num 100)]] []),
          ("s2", Node.mk "s2" NodeTypeService "ns" "" "" "" "svc2" [] [])] =
      Except.ok
        [("s1", Node.mk "s1" NodeTypeService "ns" "" "" "" "svc1"
            [Edge.mk "w" "s2" [("protocol", MetaVal.str "http"), ("http", MetaVal.num 100)]] []),
          ("s2", Node.mk "s2" NodeTypeService "ns" "" "" "" "svc2" [] [])] ∧
      reduceToServiceGraph
        [("s1", Node.mk "s1" NodeTypeService "ns" "" "" "" "svc1"
            [Edge.mk "s1" "w" [("protocol", MetaVal.str "http"), ("http", MetaVal.num 100)],
              Edge.mk "s1" "w2" [("protocol", MetaVal.str "http"), ("http", MetaVal.num 50)]] []),
          ("w", Node.mk "w" NodeTypeWorkload "ns" "w" "" "" ""
            [Edge.mk "w" "s2" [("protocol", MetaVal.str "http"), ("http", MetaVal.num 100)]] []),
          ("w2", Node.mk "w2" NodeTypeWorkload "ns" "w2" "" "" ""
            [Edge.mk "w2" "s2" [("protocol", MetaVal.str "http"), ("http", MetaVal.num 50)]] []),
          ("s2", Node.mk "s2" NodeTypeService "ns" "" "" "" "svc2" [] [])] =
      Except.ok
        [("s1", Node.mk "s1" NodeTypeService "ns" "" "" "" "svc1"
            [Edge.mk "w" "s2" [("protocol", MetaVal.str "http"), ("http", MetaVal.num 150)]] []),
          ("s2", Node.mk "s2" NodeTypeService "ns" "" "" "" "svc2" [] [])] := by
  constructor
  · rfl
  · have h : (100 : ℚ) + 50 = 150 := by norm_num
    have h2 : reduceToServiceGraph
        [("s1", Node.mk "s1" NodeTypeService "ns" "" "" "" "svc1"
            [Edge.mk "s1" "w" [("protocol", MetaVal.str "http"), ("http", MetaVal.num 100)],
              Edge.mk "s1" "w2" [("protocol", MetaVal.str "http"), ("http", MetaVal.num 50)]] []),
          ("w", Node.mk "w" NodeTypeWorkload "ns" "w" "" "" ""
            [Edge.mk "w" "s2" [("protocol", MetaVal.str "http"), ("http", MetaVal.num 100)]] []),
          ("w2", Node.mk "w2" NodeTypeWorkload "ns" "w2" "" "" ""
            [Edge.mk "w2" "s2" [("protocol", MetaVal.str "http"), ("http", MetaVal.num 50)]] []),
          ("s2", Node.mk "s2" NodeTypeService "ns" "" "" "" "svc2" [] [])] =
      Except.ok
        [("s1", Node.mk "s1" NodeTypeService "ns" "" "" "" "svc1"
            [Edge.mk "w" "s2" [("protocol", MetaVal.str "http"), ("http", MetaVal.num (100 + 50))]] []),
          ("s2", Node.mk "s2" NodeTypeService "ns" "" "" "" "svc2" [] [])] := rfl
    rw [h] at h2
    exact h2

/-! ### Counter sums over the traffic map -/

/-- The numeric reading of a metadata key: the stored rational, 0 when the key
is absent or holds a non-numeric value. -/
def mdNumD (md : Metadata) (k : String) : ℚ :=
  match mdLookup md k with
  | some (MetaVal.num v) => v
  | _ => 0

/-- The numeric reading of a metadata key of the node at id, 0 when absent. -/
def nodeNum (tm : TrafficMap) (id k : String) : ℚ :=
  match tmLookup tm id with
  | some n => mdNumD n.Metadata k
  | none => 0

/-- Sum of a numeric metadata key over all nodes of the map. -/
def sumNodesNum (tm : TrafficMap) (k : String) : ℚ :=
  (tm.map (fun p => mdNumD p.2.Metadata k)).sum

/-- Sum of a numeric metadata key over an edge list. -/
def edgeSum (es : List Edge) (k : String) : ℚ :=
  (es.map (fun e => mdNumD e.Metadata k)).sum

/-- Sum of a numeric metadata key over all edges of all nodes. -/
def sumEdgesNum (tm : TrafficMap) (k : String) : ℚ :=
  (tm.map (fun p => edgeSum p.2.Edges k)).sum

theorem mdNumD_addToMetadataValue_self (md : Metadata) (k : String) (v : ℚ) :
    mdNumD (addToMetadataValue md k v) k = mdNumD md k + v := by
  unfold addToMetadataValue mdNumD
  cases h : mdLookup md k with
  | none => rw [mdLookup_mdInsert_self]; norm_num
  | some mv =>
    cases mv with
    | num c => rw [mdLookup_mdInsert_self]
    | flag b => rw [mdLookup_mdInsert_self]; norm_num
    | str s => rw [mdLookup_mdInsert_self]; norm_num
    | strset s => rw [mdLookup_mdInsert_self]; norm_num

theorem mdNumD_addToMetadataValue_ne (md : Metadata) (k k' : String) (v : ℚ)
    (h : k ≠ k') : mdNumD (addToMetadataValue md k v) k' = mdNumD md k' := by
  unfold addToMetadataValue mdNumD
  cases hm : mdLookup md k with
  | none => rw [mdLookup_mdInsert_ne _ _ _ _ h]
  | some mv =>
    cases mv <;> rw [mdLookup_mdInsert_ne _ _ _ _ h]

theorem mdNumD_addToDestServices (md : Metadata) (s k : String)
    (h : k ≠ "destServices") : mdNumD (addToDestServices md s) k = mdNumD md k := by
  unfold addToDestServices mdNumD
  cases hm : mdLookup md "destServices" with
  | none => rw [mdLookup_mdInsert_ne _ _ _ _ (Ne.symm h)]
  | some mv =>
    cases mv with
    | strset ss => rw [mdLookup_mdInsert_ne _ _ _ _ (Ne.symm h)]
    | num c => rfl
    | flag b => rfl
    | str t => rfl

theorem handleMisconfiguredLabels_Edges (n : Node) (a b : String) (r : ℚ) (g : String) :
    (handleMisconfiguredLabels n a b r g).Edges = n.Edges := by
  unfold handleMisconfiguredLabels
  dsimp only
  split_ifs <;> rfl

theorem mdNumD_handleMisconfiguredLabels (n : Node) (a b : String) (r : ℚ) (g k : String)
    (h : k ≠ "isMisconfigured") :
    mdNumD (handleMisconfiguredLabels n a b r g).Metadata k = mdNumD n.Metadata k := by
  unfold handleMisconfiguredLabels
  dsimp only
  split_ifs <;>
    first
      | rfl
      | · show mdNumD (mdInsert n.Metadata "isMisconfigured" _) k = _
          unfold mdNumD
          rw [mdLookup_mdInsert_ne _ _ _ _ (Ne.symm h)]

theorem tmUpdate_absent (tm : TrafficMap) (id : String) (f : Node → Node)
    (h : tmLookup tm id = none) : tmUpdate tm id f = tm := by
  induction tm with
  | nil => rfl
  | cons p rest ih =>
    by_cases hp : p.1 = id
    · simp [tmLookup, hp] at h
    · simp only [tmLookup, hp, if_neg, not_false_iff] at h
      simp [tmUpdate, hp, ih h]

theorem sumNodesNum_tmUpdate_preserve (tm : TrafficMap) (id k : String) (f : Node → Node)
    (hf : ∀ n, mdNumD (f n).Metadata k = mdNumD n.Metadata k) :
    sumNodesNum (tmUpdate tm id f) k = sumNodesNum tm k := by
  induction tm with
  | nil => rfl
  | cons p rest ih =>
    by_cases hp : p.1 = id
    · simp [tmUpdate, hp, sumNodesNum, hf]
    · simp only [tmUpdate, hp, if_neg, not_false_iff, sumNodesNum, List.map_cons, List.sum_cons]
      rw [show ((tmUpdate rest id f).map (fun p => mdNumD p.2.Metadata k)).sum =
        sumNodesNum (tmUpdate rest id f) k from rfl, ih]
      rfl

theorem sumNodesNum_tmUpdate_add (tm : TrafficMap) (id k : String) (f : Node → Node) (v : ℚ)
    (hf : ∀ n, mdNumD (f n).Metadata k = mdNumD n.Metadata k + v)
    (h : (tmLookup tm id).isSome) :
    sumNodesNum (tmUpdate tm id f) k = sumNodesNum tm k + v := by
  induction tm with
  | nil => simp [tmLookup] at h
  | cons p rest ih =>
    by_cases hp : p.1 = id
    · simp only [tmUpdate, hp, if_pos, sumNodesNum, List.map_cons, List.sum_cons, hf]
      ring
    · simp only [tmLookup, hp, if_neg, not_false_iff] at h
      simp only [tmUpdate, hp, if_neg, not_false_iff, sumNodesNum, List.map_cons, List.sum_cons]
      rw [show ((tmUpdate rest id f).map (fun p => mdNumD p.2.Metadata k)).sum =
        sumNodesNum (tmUpdate rest id f) k from rfl, ih h]
      show _ = mdNumD p.2.Metadata k + sumNodesNum rest k + v
      ring

theorem sumEdgesNum_tmUpdate_preserve (tm : TrafficMap) (id k : String) (f : Node → Node)
    (hf : ∀ n, edgeSum (f n).Edges k = edgeSum n.Edges k) :
    sumEdgesNum (tmUpdate tm id f) k = sumEdgesNum tm k := by
  induction tm with
  | nil => rfl
  | cons p rest ih =>
    by_cases hp : p.1 = id
    · simp [tmUpdate, hp, sumEdgesNum, hf]
    · simp only [tmUpdate, hp, if_neg, not_false_iff, sumEdgesNum, List.map_cons, List.sum_cons]
      rw [show ((tmUpdate rest id f).map (fun p => edgeSum p.2.Edges k)).sum =
        sumEdgesNum (tmUpdate rest id f) k from rfl, ih]
      rfl

theorem sumEdgesNum_tmUpdate_add (tm : TrafficMap) (id k : String) (f : Node → Node) (v : ℚ)
    (hf : ∀ n, edgeSum (f n).Edges k = edgeSum n.Edges k + v)
    (h : (tmLookup tm id).isSome) :
    sumEdgesNum (tmUpdate tm id f) k = sumEdgesNum tm k + v := by
  induction tm with
  | nil => simp [tmLookup] at h
  | cons p rest ih =>
    by_cases hp : p.1 = id
    · simp only [tmUpdate, hp, if_pos, sumEdgesNum, List.map_cons, List.sum_cons, hf]
      ring
    · simp only [tmLookup, hp, if_neg, not_false_iff] at h
      simp only [tmUpdate, hp, if_neg, not_false_iff, sumEdgesNum, List.map_cons, List.sum_cons]
      rw [show ((tmUpdate rest id f).map (fun p => edgeSum p.2.Edges k)).sum =
        sumEdgesNum (tmUpdate rest id f) k from rfl, ih h]
      show _ = edgeSum p.2.Edges k + sumEdgesNum rest k + v
      ring

theorem sumNodesNum_tmInsert_found (tm : TrafficMap) (id k : String) (n m : Node)
    (h : tmLookup tm id = some n) (hm : mdNumD m.Metadata k = mdNumD n.Metadata k) :
    sumNodesNum (tmInsert tm id m) k = sumNodesNum tm k := by
  induction tm with
  | nil => simp [tmLookup] at h
  | cons p rest ih =>
    by_cases hp : p.1 = id
    · simp only [tmLookup, hp, if_pos, Option.some.injEq] at h
      simp [tmInsert, hp, sumNodesNum, hm, h]
    · simp only [tmLookup, hp, if_neg, not_false_iff] at h
      simp only [tmInsert, hp, if_neg, not_false_iff, sumNodesNum, List.map_cons, List.sum_cons]
      rw [show ((tmInsert rest id m).map (fun p => mdNumD p.2.Metadata k)).sum =
        sumNodesNum (tmInsert rest id m) k from rfl, ih h]
      rfl

theorem sumEdgesNum_tmInsert_found (tm : TrafficMap) (id k : String) (n m : Node)
    (h : tmLookup tm id = some n) (hm : edgeSum m.Edges k = edgeSum n.Edges k) :
    sumEdgesNum (tmInsert tm id m) k = sumEdgesNum tm k := by
  induction tm with
  | nil => simp [tmLookup] at h
  | cons p rest ih =>
    by_cases hp : p.1 = id
    · simp only [tmLookup, hp, if_pos, Option.some.injEq] at h
      simp [tmInsert, hp, sumEdgesNum, hm, h]
    · simp only [tmLookup, hp, if_neg, not_false_iff] at h
      simp only [tmInsert, hp, if_neg, not_false_iff, sumEdgesNum, List.map_cons, List.sum_cons]
      rw [show ((tmInsert rest id m).map (fun p => edgeSum p.2.Edges k)).sum =
        sumEdgesNum (tmInsert rest id m) k from rfl, ih h]
      rfl

theorem sumNodesNum_tmInsert_absent (tm : TrafficMap) (id k : String) (m : Node)
    (h : tmLookup tm id = none) :
    sumNodesNum (tmInsert tm id m) k = sumNodesNum tm k + mdNumD m.Metadata k := by
  induction tm with
  | nil => simp [tmInsert, sumNodesNum]
  | cons p rest ih =>
    by_cases hp : p.1 = id
    · simp [tmLookup, hp] at h
    · simp only [tmLookup, hp, if_neg, not_false_iff] at h
      simp only [tmInsert, hp, if_neg, not_false_iff, sumNodesNum, List.map_cons, List.sum_cons]
      rw [show ((tmInsert rest id m).map (fun p => mdNumD p.2.Metadata k)).sum =
        sumNodesNum (tmInsert rest id m) k from rfl, ih h]
      show _ = mdNumD p.2.Metadata k + sumNodesNum rest k + mdNumD m.Metadata k
      ring

theorem sumEdgesNum_tmInsert_absent (tm : TrafficMap) (id k : String) (m : Node)
    (h : tmLookup tm id = none) :
    sumEdgesNum (tmInsert tm id m) k = sumEdgesNum tm k + edgeSum m.Edges k := by
  induction tm with
  | nil => simp [tmInsert, sumEdgesNum]
  | cons p rest ih =>
    by_cases hp : p.1 = id
    · simp [tmLookup, hp] at h
    · simp only [tmLookup, hp, if_neg, not_false_iff] at h
      simp only [tmInsert, hp, if_neg, not_false_iff, sumEdgesNum, List.map_cons, List.sum_cons]
      rw [show ((tmInsert rest id m).map (fun p => edgeSum p.2.Edges k)).sum =
        sumEdgesNum (tmInsert rest id m) k from rfl, ih h]
      show _ = edgeSum p.2.Edges k + sumEdgesNum rest k + edgeSum m.Edges k
      ring

theorem NewNodeExplicit_Metadata (id ns wl app ver svc nodeType graphType : String) :
    (NewNodeExplicit id ns wl app ver svc nodeType graphType).Metadata = [] := by
  unfold NewNodeExplicit
  split_ifs <;> rfl

theorem NewNodeExplicit_Edges (id ns wl app ver svc nodeType graphType : String) :
    (NewNodeExplicit id ns wl app ver svc nodeType graphType).Edges = [] := by
  unfold NewNodeExplicit
  split_ifs <;> rfl

theorem sumNodesNum_addNode (tm : TrafficMap) (ns wl app ver svc graphType k : String) :
    sumNodesNum (addNode tm ns wl app ver svc graphType).1 k = sumNodesNum tm k := by
  unfold addNode
  dsimp only
  cases h : tmLookup tm (graphId ns wl app ver svc graphType).1 with
  | some n => rfl
  | none =>
    show sumNodesNum (tmInsert tm _ _) k = _
    rw [sumNodesNum_tmInsert_absent tm _ k _ h]
    simp [mdNumD, NewNodeExplicit_Metadata, mdLookup]

theorem sumEdgesNum_addNode (tm : TrafficMap) (ns wl app ver svc graphType k : String) :
    sumEdgesNum (addNode tm ns wl app ver svc graphType).1 k = sumEdgesNum tm k := by
  unfold addNode
  dsimp only
  cases h : tmLookup tm (graphId ns wl app ver svc graphType).1 with
  | some n => rfl
  | none =>
    show sumEdgesNum (tmInsert tm _ _) k = _
    rw [sumEdgesNum_tmInsert_absent tm _ k _ h]
    simp [edgeSum, NewNodeExplicit_Edges]

theorem tmLookup_isSome_tmInsert (tm : TrafficMap) (id id' : String) (n : Node)
    (h : (tmLookup tm id').isSome) : (tmLookup (tmInsert tm id n) id').isSome := by
  by_cases hp : id = id'
  · subst hp
    rw [tmLookup_tmInsert_self]
    rfl
  · rw [tmLookup_tmInsert_ne _ _ _ _ hp]
    exact h

theorem addNode_self_isSome (tm : TrafficMap) (ns wl app ver svc graphType : String) :
    (tmLookup (addNode tm ns wl app ver svc graphType).1
      (addNode tm ns wl app ver svc graphType).2.1).isSome := by
  unfold addNode
  dsimp only
  cases h : tmLookup tm (graphId ns wl app ver svc graphType).1 with
  | some n => simp [h]
  | none =>
    show (tmLookup (tmInsert tm _ _) _).isSome
    rw [tmLookup_tmInsert_self]
    rfl

theorem addNode_isSome_mono (tm : TrafficMap) (ns wl app ver svc graphType id : String)
    (h : (tmLookup tm id).isSome) :
    (tmLookup (addNode tm ns wl app ver svc graphType).1 id).isSome := by
  unfold addNode
  dsimp only
  cases hm : tmLookup tm (graphId ns wl app ver svc graphType).1 with
  | some n => exact h
  | none => exact tmLookup_isSome_tmInsert _ _ _ _ h

theorem edgeSum_append (es fs : List Edge) (k : String) :
    edgeSum (es ++ fs) k = edgeSum es k + edgeSum fs k := by
  simp [edgeSum]

theorem findEdgeIdx_lt (es : List Edge) (p : Edge → Bool) (i : Nat)
    (h : findEdgeIdx es p = some i) : i < es.length := by
  induction es generalizing i with
  | nil => simp [findEdgeIdx] at h
  | cons e rest ih =>
    by_cases hp : p e
    · simp [findEdgeIdx, hp] at h
      simp only [List.length_cons]
      omega
    · simp only [findEdgeIdx, hp, if_neg, Bool.false_eq_true, not_false_iff] at h
      cases hr : findEdgeIdx rest p with
      | none => rw [hr] at h; simp at h
      | some j =>
        rw [hr] at h
        simp only [Option.map_some', Option.some.injEq] at h
        have := ih j hr
        simp only [List.length_cons]
        omega

theorem edgeSum_edgesModify_add (es : List Edge) (i : Nat) (f : Edge → Edge) (k : String) (v : ℚ)
    (hf : ∀ e, mdNumD (f e).Metadata k = mdNumD e.Metadata k + v) (hi : i < es.length) :
    edgeSum (edgesModify es i f) k = edgeSum es k + v := by
  induction es generalizing i with
  | nil => simp at hi
  | cons e rest ih =>
    cases i with
    | zero =>
      simp only [edgesModify, edgeSum, List.map_cons, List.sum_cons, hf]
      ring
    | succ j =>
      simp only [edgesModify, edgeSum, List.map_cons, List.sum_cons]
      rw [show ((edgesModify rest j f).map (fun e => mdNumD e.Metadata k)).sum =
        edgeSum (edgesModify rest j f) k from rfl, ih j (by simpa using hi)]
      show _ = mdNumD e.Metadata k + edgeSum rest k + v
      ring

theorem edgeSum_edgesModify_preserve (es : List Edge) (i : Nat) (f : Edge → Edge) (k : String)
    (hf : ∀ e, mdNumD (f e).Metadata k = mdNumD e.Metadata k) :
    edgeSum (edgesModify es i f) k = edgeSum es k := by
  induction es generalizing i with
  | nil => rfl
  | cons e rest ih =>
    cases i with
    | zero => simp [edgesModify, edgeSum, hf]
    | succ j =>
      simp only [edgesModify, edgeSum, List.map_cons, List.sum_cons]
      rw [show ((edgesModify rest j f).map (fun e => mdNumD e.Metadata k)).sum =
        edgeSum (edgesModify rest j f) k from rfl, ih j]
      rfl

theorem edgeSum_edgeAddVal_self (es : List Edge) (i : Nat) (k : String) (v : ℚ)
    (hi : i < es.length) : edgeSum (edgeAddVal es i k v) k = edgeSum es k + v := by
  unfold edgeAddVal
  exact edgeSum_edgesModify_add es i _ k v
    (fun e => mdNumD_addToMetadataValue_self e.Metadata k v) hi

theorem edgeSum_edgeAddVal_ne (es : List Edge) (i : Nat) (k k' : String) (v : ℚ)
    (h : k ≠ k') : edgeSum (edgeAddVal es i k v) k' = edgeSum es k' := by
  unfold edgeAddVal
  exact edgeSum_edgesModify_preserve es i _ k'
    (fun e => mdNumD_addToMetadataValue_ne e.Metadata k k' v h)

theorem findOrCreateEdge_idx_lt (es : List Edge) (p : Edge → Bool) (s d pr : String) :
    (findOrCreateEdge es p s d pr).2 < (findOrCreateEdge es p s d pr).1.length := by
  unfold findOrCreateEdge
  cases h : findEdgeIdx es p with
  | some i => exact findEdgeIdx_lt es p i h
  | none => simp

theorem edgeSum_findOrCreateEdge (es : List Edge) (p : Edge → Bool) (s d pr k : String) :
    edgeSum (findOrCreateEdge es p s d pr).1 k = edgeSum es k := by
  unfold findOrCreateEdge
  cases h : findEdgeIdx es p with
  | some i => rfl
  | none =>
    show edgeSum (es ++ [Edge.mk s d (mdInsert [] "protocol" (MetaVal.str pr))]) k = _
    rw [edgeSum_append]
    have : mdNumD (mdInsert [] "protocol" (MetaVal.str pr)) k = 0 := by
      unfold mdNumD
      by_cases hk : k = "protocol"
      · subst hk
        rw [show mdInsert [] "protocol" (MetaVal.str pr) = [("protocol", MetaVal.str pr)] from rfl]
        simp [mdLookup]
      · rw [mdLookup_mdInsert_ne _ _ _ _ (fun hh => hk hh.symm)]
        rfl
    simp [edgeSum, this]

theorem tmLookup_map_Edges_tmUpdate (tm : TrafficMap) (id a : String) (f : Node → Node)
    (hf : ∀ n, (f n).Edges = n.Edges) :
    (tmLookup (tmUpdate tm id f) a).map Node.Edges = (tmLookup tm a).map Node.Edges := by
  by_cases h : id = a
  · subst h
    rw [tmLookup_tmUpdate_self]
    cases tmLookup tm id with
    | none => rfl
    | some n => simp [hf]
  · rw [tmLookup_tmUpdate_ne _ _ _ _ h]

theorem sumEdgesNum_tmUpdate_lookup (tm : TrafficMap) (id k : String) (f : Node → Node)
    (n : Node) (h : tmLookup tm id = some n) :
    sumEdgesNum (tmUpdate tm id f) k =
      sumEdgesNum tm k - edgeSum n.Edges k + edgeSum (f n).Edges k := by
  induction tm with
  | nil => simp [tmLookup] at h
  | cons p rest ih =>
    by_cases hp : p.1 = id
    · simp only [tmLookup, hp, if_pos, Option.some.injEq] at h
      subst h
      simp only [tmUpdate, hp, if_pos, sumEdgesNum, List.map_cons, List.sum_cons]
      ring
    · simp only [tmLookup, hp, if_neg, not_false_iff] at h
      simp only [tmUpdate, hp, if_neg, not_false_iff, sumEdgesNum, List.map_cons, List.sum_cons]
      rw [show ((tmUpdate rest id f).map (fun p => edgeSum p.2.Edges k)).sum =
        sumEdgesNum (tmUpdate rest id f) k from rfl, ih h]
      show _ = edgeSum p.2.Edges k + sumEdgesNum rest k - edgeSum n.Edges k + edgeSum (f n).Edges k
      ring

theorem bucket_sumNodes (tm : TrafficMap) (did sid kb ke k : String) (val : ℚ) (i : Nat)
    (hkb : kb ≠ k) :
    sumNodesNum (tmUpdate (tmUpdate tm did
        (fun n => { n with Metadata := addToMetadataValue n.Metadata kb val })) sid
        (fun n => { n with Edges := edgeAddVal n.Edges i ke val })) k = sumNodesNum tm k := by
  rw [sumNodesNum_tmUpdate_preserve _ sid k
      (fun n => { n with Edges := edgeAddVal n.Edges i ke val }) (fun n => rfl),
    sumNodesNum_tmUpdate_preserve _ did k
      (fun n => { n with Metadata := addToMetadataValue n.Metadata kb val })
      (fun n => mdNumD_addToMetadataValue_ne n.Metadata kb k val hkb)]

theorem bucket_sumEdges (tm : TrafficMap) (did sid kb ke k : String) (val : ℚ) (i : Nat)
    (hke : ke ≠ k) :
    sumEdgesNum (tmUpdate (tmUpdate tm did
        (fun n => { n with Metadata := addToMetadataValue n.Metadata kb val })) sid
        (fun n => { n with Edges := edgeAddVal n.Edges i ke val })) k = sumEdgesNum tm k := by
  rw [sumEdgesNum_tmUpdate_preserve _ sid k
      (fun n => { n with Edges := edgeAddVal n.Edges i ke val })
      (fun n => edgeSum_edgeAddVal_ne n.Edges i ke k val hke),
    sumEdgesNum_tmUpdate_preserve _ did k
      (fun n => { n with Metadata := addToMetadataValue n.Metadata kb val }) (fun n => rfl)]

theorem tmLookup_isSome_ite (c : Prop) [Decidable c] (tm : TrafficMap) (id a : String)
    (f : Node → Node) :
    (tmLookup (if c then tmUpdate tm id f else tm) a).isSome = (tmLookup tm a).isSome := by
  split_ifs with h
  · exact tmLookup_tmUpdate_isSome tm id a f
  · rfl

theorem sumNodesNum_ite_preserve (c : Prop) [Decidable c] (tm : TrafficMap) (id k : String)
    (f : Node → Node) (hf : ∀ n, mdNumD (f n).Metadata k = mdNumD n.Metadata k) :
    sumNodesNum (if c then tmUpdate tm id f else tm) k = sumNodesNum tm k := by
  split_ifs with h
  · exact sumNodesNum_tmUpdate_preserve tm id k f hf
  · rfl

theorem sumEdgesNum_ite_preserve (c : Prop) [Decidable c] (tm : TrafficMap) (id k : String)
    (f : Node → Node) (hf : ∀ n, edgeSum (f n).Edges k = edgeSum n.Edges k) :
    sumEdgesNum (if c then tmUpdate tm id f else tm) k = sumEdgesNum tm k := by
  split_ifs with h
  · exact sumEdgesNum_tmUpdate_preserve tm id k f hf
  · rfl

theorem tmLookup_map_Edges_ite (c : Prop) [Decidable c] (tm : TrafficMap) (id a : String)
    (f : Node → Node) (hf : ∀ n, (f n).Edges = n.Edges) :
    (tmLookup (if c then tmUpdate tm id f else tm) a).map Node.Edges =
      (tmLookup tm a).map Node.Edges := by
  split_ifs with h
  · exact tmLookup_map_Edges_tmUpdate tm id a f hf
  · rfl

theorem sumNodesNum_bucketChain (tm : TrafficMap) (code did sid k : String) (val : ℚ) (i : Nat)
    (h3 : ("httpIn3xx" : String) ≠ k) (h4 : ("httpIn4xx" : String) ≠ k)
    (h5 : ("httpIn5xx" : String) ≠ k) :
    sumNodesNum
      (if strStartsWith code "3" then
        tmUpdate (tmUpdate tm did
            (fun n => { n with Metadata := addToMetadataValue n.Metadata "httpIn3xx" val })) sid
          (fun n => { n with Edges := edgeAddVal n.Edges i "http3xx" val })
      else if strStartsWith code "4" then
        tmUpdate (tmUpdate tm did
            (fun n => { n with Metadata := addToMetadataValue n.Metadata "httpIn4xx" val })) sid
          (fun n => { n with Edges := edgeAddVal n.Edges i "http4xx" val })
      else if strStartsWith code "5" then
        tmUpdate (tmUpdate tm did
            (fun n => { n with Metadata := addToMetadataValue n.Metadata "httpIn5xx" val })) sid
          (fun n => { n with Edges := edgeAddVal n.Edges i "http5xx" val })
      else tm) k = sumNodesNum tm k := by
  split_ifs
  · exact bucket_sumNodes tm did sid "httpIn3xx" "http3xx" k val i h3
  · exact bucket_sumNodes tm did sid "httpIn4xx" "http4xx" k val i h4
  · exact bucket_sumNodes tm did sid "httpIn5xx" "http5xx" k val i h5
  · rfl

theorem sumEdgesNum_bucketChain (tm : TrafficMap) (code did sid k : String) (val : ℚ) (i : Nat)
    (h3 : ("http3xx" : String) ≠ k) (h4 : ("http4xx" : String) ≠ k)
    (h5 : ("http5xx" : String) ≠ k) :
    sumEdgesNum
      (if strStartsWith code "3" then
        tmUpdate (tmUpdate tm did
            (fun n => { n with Metadata := addToMetadataValue n.Metadata "httpIn3xx" val })) sid
          (fun n => { n with Edges := edgeAddVal n.Edges i "http3xx" val })
      else if strStartsWith code "4" then
        tmUpdate (tmUpdate tm did
            (fun n => { n with Metadata := addToMetadataValue n.Metadata "httpIn4xx" val })) sid
          (fun n => { n with Edges := edgeAddVal n.Edges i "http4xx" val })
      else if strStartsWith code "5" then
        tmUpdate (tmUpdate tm did
            (fun n => { n with Metadata := addToMetadataValue n.Metadata "httpIn5xx" val })) sid
          (fun n => { n with Edges := edgeAddVal n.Edges i "http5xx" val })
      else tm) k = sumEdgesNum tm k := by
  split_ifs
  · exact bucket_sumEdges tm did sid "httpIn3xx" "http3xx" k val i h3
  · exact bucket_sumEdges tm did sid "httpIn4xx" "http4xx" k val i h4
  · exact bucket_sumEdges tm did sid "httpIn5xx" "http5xx" k val i h5
  · rfl

theorem httpChain_sums (t3 : TrafficMap) (sid did g sApp sVer dApp dVer code : String)
    (sourceFound destFound : Bool) (val : ℚ) (sn : Node) (pe : List Edge × Nat)
    (hsn : tmLookup t3 sid = some sn)
    (hdid : (tmLookup t3 did).isSome = true)
    (hpe1 : ∀ k, edgeSum pe.1 k = edgeSum sn.Edges k)
    (hpe2 : pe.2 < pe.1.length) :
    (let tm4 := tmInsert t3 sid { sn with Edges := pe.1 }
     let tm5 := if sourceFound then
        tmUpdate tm4 sid (fun n => handleMisconfiguredLabels n sApp sVer val g) else tm4
     let tm6 := if destFound then
        tmUpdate tm5 did (fun n => handleMisconfiguredLabels n dApp dVer val g) else tm5
     let tm7 := tmUpdate tm6 sid
        (fun n => { n with Metadata := addToMetadataValue n.Metadata "httpOut" val })
     let tm8 := tmUpdate tm7 did
        (fun n => { n with Metadata := addToMetadataValue n.Metadata "httpIn" val })
     let tm9 := tmUpdate tm8 sid
        (fun n => { n with Edges := edgeAddVal n.Edges pe.2 "http" val })
     let res := if strStartsWith code "3" then
        tmUpdate (tmUpdate tm9 did
            (fun n => { n with Metadata := addToMetadataValue n.Metadata "httpIn3xx" val })) sid
          (fun n => { n with Edges := edgeAddVal n.Edges pe.2 "http3xx" val })
      else if strStartsWith code "4" then
        tmUpdate (tmUpdate tm9 did
            (fun n => { n with Metadata := addToMetadataValue n.Metadata "httpIn4xx" val })) sid
          (fun n => { n with Edges := edgeAddVal n.Edges pe.2 "http4xx" val })
      else if strStartsWith code "5" then
        tmUpdate (tmUpdate tm9 did
            (fun n => { n with Metadata := addToMetadataValue n.Metadata "httpIn5xx" val })) sid
          (fun n => { n with Edges := edgeAddVal n.Edges pe.2 "http5xx" val })
      else tm9
     sumNodesNum res "httpOut" = sumNodesNum t3 "httpOut" + val ∧
       sumNodesNum res "httpIn" = sumNodesNum t3 "httpIn" + val ∧
       sumEdgesNum res "http" = sumEdgesNum t3 "http" + val) := by
  intro tm4 tm5 tm6 tm7 tm8 tm9 res
  have h4look : tmLookup tm4 sid = some { sn with Edges := pe.1 } :=
    tmLookup_tmInsert_self t3 sid _
  have h4sid : (tmLookup tm4 sid).isSome = true := by rw [h4look]; rfl
  have h4did : (tmLookup tm4 did).isSome = true :=
    tmLookup_isSome_tmInsert t3 sid did _ hdid
  have e5 : ∀ a, (tmLookup tm5 a).isSome = (tmLookup tm4 a).isSome :=
    fun a => tmLookup_isSome_ite (sourceFound = true) tm4 sid a
      (fun n => handleMisconfiguredLabels n sApp sVer val g)
  have e6 : ∀ a, (tmLookup tm6 a).isSome = (tmLookup tm5 a).isSome :=
    fun a => tmLookup_isSome_ite (destFound = true) tm5 did a
      (fun n => handleMisconfiguredLabels n dApp dVer val g)
  have e7 : ∀ a, (tmLookup tm7 a).isSome = (tmLookup tm6 a).isSome :=
    fun a => tmLookup_tmUpdate_isSome tm6 sid a
      (fun n => { n with Metadata := addToMetadataValue n.Metadata "httpOut" val })
  have h6sid : (tmLookup tm6 sid).isSome = true := by rw [e6, e5]; exact h4sid
  have h7did : (tmLookup tm7 did).isSome = true := by rw [e7, e6, e5]; exact h4did
  refine ⟨?_, ?_, ?_⟩
  · calc sumNodesNum res "httpOut"
        = sumNodesNum tm9 "httpOut" :=
          sumNodesNum_bucketChain tm9 code did sid "httpOut" val pe.2
            (by decide) (by decide) (by decide)
      _ = sumNodesNum tm8 "httpOut" :=
          sumNodesNum_tmUpdate_preserve tm8 sid "httpOut"
            (fun n => { n with Edges := edgeAddVal n.Edges pe.2 "http" val }) (fun n => rfl)
      _ = sumNodesNum tm7 "httpOut" :=
          sumNodesNum_tmUpdate_preserve tm7 did "httpOut"
            (fun n => { n with Metadata := addToMetadataValue n.Metadata "httpIn" val })
            (fun n => mdNumD_addToMetadataValue_ne n.Metadata "httpIn" "httpOut" val (by decide))
      _ = sumNodesNum tm6 "httpOut" + val :=
          sumNodesNum_tmUpdate_add tm6 sid "httpOut"
            (fun n => { n with Metadata := addToMetadataValue n.Metadata "httpOut" val }) val
            (fun n => mdNumD_addToMetadataValue_self n.Metadata "httpOut" val) h6sid
      _ = sumNodesNum tm5 "httpOut" + val := by
          rw [sumNodesNum_ite_preserve (destFound = true) tm5 did "httpOut"
            (fun n => handleMisconfiguredLabels n dApp dVer val g)
            (fun n => mdNumD_handleMisconfiguredLabels n dApp dVer val g "httpOut" (by decide))]
      _ = sumNodesNum tm4 "httpOut" + val := by
          rw [sumNodesNum_ite_preserve (sourceFound = true) tm4 sid "httpOut"
            (fun n => handleMisconfiguredLabels n sApp sVer val g)
            (fun n => mdNumD_handleMisconfiguredLabels n sApp sVer val g "httpOut" (by decide))]
      _ = sumNodesNum t3 "httpOut" + val := by
          rw [sumNodesNum_tmInsert_found t3 sid "httpOut" sn { sn with Edges := pe.1 } hsn rfl]
  · calc sumNodesNum res "httpIn"
        = sumNodesNum tm9 "httpIn" :=
          sumNodesNum_bucketChain tm9 code did sid "httpIn" val pe.2
            (by decide) (by decide) (by decide)
      _ = sumNodesNum tm8 "httpIn" :=
          sumNodesNum_tmUpdate_preserve tm8 sid "httpIn"
            (fun n => { n with Edges := edgeAddVal n.Edges pe.2 "http" val }) (fun n => rfl)
      _ = sumNodesNum tm7 "httpIn" + val :=
          sumNodesNum_tmUpdate_add tm7 did "httpIn"
            (fun n => { n with Metadata := addToMetadataValue n.Metadata "httpIn" val }) val
            (fun n => mdNumD_addToMetadataValue_self n.Metadata "httpIn" val) h7did
      _ = sumNodesNum tm6 "httpIn" + val := by
          rw [sumNodesNum_tmUpdate_preserve tm6 sid "httpIn"
            (fun n => { n with Metadata := addToMetadataValue n.Metadata "httpOut" val })
            (fun n => mdNumD_addToMetadataValue_ne n.Metadata "httpOut" "httpIn" val (by decide))]
      _ = sumNodesNum tm5 "httpIn" + val := by
          rw [sumNodesNum_ite_preserve (destFound = true) tm5 did "httpIn"
            (fun n => handleMisconfiguredLabels n dApp dVer val g)
            (fun n => mdNumD_handleMisconfiguredLabels n dApp dVer val g "httpIn" (by decide))]
      _ = sumNodesNum tm4 "httpIn" + val := by
          rw [sumNodesNum_ite_preserve (sourceFound = true) tm4 sid "httpIn"
            (fun n => handleMisconfiguredLabels n sApp sVer val g)
            (fun n => mdNumD_handleMisconfiguredLabels n sApp sVer val g "httpIn" (by decide))]
      _ = sumNodesNum t3 "httpIn" + val := by
          rw [sumNodesNum_tmInsert_found t3 sid "httpIn" sn { sn with Edges := pe.1 } hsn rfl]
  · have hview : (tmLookup tm8 sid).map Node.Edges = some pe.1 := by
      calc (tmLookup tm8 sid).map Node.Edges
          = (tmLookup tm7 sid).map Node.Edges :=
            tmLookup_map_Edges_tmUpdate tm7 did sid
              (fun n => { n with Metadata := addToMetadataValue n.Metadata "httpIn" val })
              (fun n => rfl)
        _ = (tmLookup tm6 sid).map Node.Edges :=
            tmLookup_map_Edges_tmUpdate tm6 sid sid
              (fun n => { n with Metadata := addToMetadataValue n.Metadata "httpOut" val })
              (fun n => rfl)
        _ = (tmLookup tm5 sid).map Node.Edges :=
            tmLookup_map_Edges_ite (destFound = true) tm5 did sid
              (fun n => handleMisconfiguredLabels n dApp dVer val g)
              (fun n => handleMisconfiguredLabels_Edges n dApp dVer val g)
        _ = (tmLookup tm4 sid).map Node.Edges :=
            tmLookup_map_Edges_ite (sourceFound = true) tm4 sid sid
              (fun n => handleMisconfiguredLabels n sApp sVer val g)
              (fun n => handleMisconfiguredLabels_Edges n sApp sVer val g)
        _ = some pe.1 := by rw [h4look]; rfl
    cases h8 : tmLookup tm8 sid with
    | none => rw [h8] at hview; simp at hview
    | some n8 =>
      rw [h8] at hview
      have hn8e : n8.Edges = pe.1 := by simpa using hview
      calc sumEdgesNum res "http"
          = sumEdgesNum tm9 "http" :=
            sumEdgesNum_bucketChain tm9 code did sid "http" val pe.2
              (by decide) (by decide) (by decide)
        _ = sumEdgesNum tm8 "http" - edgeSum n8.Edges "http" +
              edgeSum (edgeAddVal n8.Edges pe.2 "http" val) "http" :=
            sumEdgesNum_tmUpdate_lookup tm8 sid "http"
              (fun n => { n with Edges := edgeAddVal n.Edges pe.2 "http" val }) n8 h8
        _ = sumEdgesNum tm8 "http" + val := by
            rw [hn8e, edgeSum_edgeAddVal_self pe.1 pe.2 "http" val hpe2]
            ring
        _ = sumEdgesNum tm7 "http" + val := by
            rw [sumEdgesNum_tmUpdate_preserve tm7 did "http"
              (fun n => { n with Metadata := addToMetadataValue n.Metadata "httpIn" val })
              (fun n => rfl)]
        _ = sumEdgesNum tm6 "http" + val := by
            rw [sumEdgesNum_tmUpdate_preserve tm6 sid "http"
              (fun n => { n with Metadata := addToMetadataValue n.Metadata "httpOut" val })
              (fun n => rfl)]
        _ = sumEdgesNum tm5 "http" + val := by
            rw [sumEdgesNum_ite_preserve (destFound = true) tm5 did "http"
              (fun n => handleMisconfiguredLabels n dApp dVer val g)
              (fun n => by rw [handleMisconfiguredLabels_Edges n dApp dVer val g])]
        _ = sumEdgesNum tm4 "http" + val := by
            rw [sumEdgesNum_ite_preserve (sourceFound = true) tm4 sid "http"
              (fun n => handleMisconfiguredLabels n sApp sVer val g)
              (fun n => by rw [handleMisconfiguredLabels_Edges n sApp sVer val g])]
        _ = sumEdgesNum t3 "http" + val := by
            rw [sumEdgesNum_tmInsert_found t3 sid "http" sn { sn with Edges := pe.1 }
              hsn (hpe1 "http")]

theorem source_present_after_builder_steps (tm : TrafficMap)
    (s1 s2 s3 s4 s5 d1 d2 d3 d4 d5 g : String) (f : Node → Node) :
    (tmLookup (tmUpdate (addNode (addNode tm s1 s2 s3 s4 s5 g).1 d1 d2 d3 d4 d5 g).1
        (addNode (addNode tm s1 s2 s3 s4 s5 g).1 d1 d2 d3 d4 d5 g).2.1 f)
      (addNode tm s1 s2 s3 s4 s5 g).2.1).isSome = true := by
  rw [tmLookup_tmUpdate_isSome]
  exact addNode_isSome_mono _ _ _ _ _ _ _ _ (addNode_self_isSome tm s1 s2 s3 s4 s5 g)

theorem dest_present_after_builder_steps (tm : TrafficMap)
    (s1 s2 s3 s4 s5 d1 d2 d3 d4 d5 g : String) (f : Node → Node) :
    (tmLookup (tmUpdate (addNode (addNode tm s1 s2 s3 s4 s5 g).1 d1 d2 d3 d4 d5 g).1
        (addNode (addNode tm s1 s2 s3 s4 s5 g).1 d1 d2 d3 d4 d5 g).2.1 f)
      (addNode (addNode tm s1 s2 s3 s4 s5 g).1 d1 d2 d3 d4 d5 g).2.1).isSome = true := by
  rw [tmLookup_tmUpdate_isSome]
  exact addNode_self_isSome _ d1 d2 d3 d4 d5 g

theorem addHttpTraffic_sum_deltas (tm : TrafficMap) (val : ℚ)
    (code sourceWlNs sourceWl sourceApp sourceVer sourceSvcName
      destSvcNs destWl destApp destVer destSvcName : String) (o : Options) :
    sumNodesNum (addHttpTraffic tm val code sourceWlNs sourceWl sourceApp sourceVer
        sourceSvcName destSvcNs destWl destApp destVer destSvcName o) "httpOut" =
      sumNodesNum tm "httpOut" + val ∧
      sumNodesNum (addHttpTraffic tm val code sourceWlNs sourceWl sourceApp sourceVer
        sourceSvcName destSvcNs destWl destApp destVer destSvcName o) "httpIn" =
      sumNodesNum tm "httpIn" + val ∧
      sumEdgesNum (addHttpTraffic tm val code sourceWlNs sourceWl sourceApp sourceVer
        sourceSvcName destSvcNs destWl destApp destVer destSvcName o) "http" =
      sumEdgesNum tm "http" + val := by
  have hpres := source_present_after_builder_steps tm sourceWlNs sourceWl sourceApp sourceVer
    sourceSvcName destSvcNs destWl destApp destVer destSvcName o.GraphType
    (fun n => { n with Metadata := addToDestServices n.Metadata destSvcName })
  have hdpres := dest_present_after_builder_steps tm sourceWlNs sourceWl sourceApp sourceVer
    sourceSvcName destSvcNs destWl destApp destVer destSvcName o.GraphType
    (fun n => { n with Metadata := addToDestServices n.Metadata destSvcName })
  unfold addHttpTraffic
  dsimp only
  split
  next hsn =>
    rw [hsn] at hpres
    simp at hpres
  next sn hsn =>
    have hsums : sumNodesNum tm "httpOut" =
        sumNodesNum (tmUpdate (addNode (addNode tm sourceWlNs sourceWl sourceApp sourceVer
          sourceSvcName o.GraphType).1 destSvcNs destWl destApp destVer destSvcName o.GraphType).1
          (addNode (addNode tm sourceWlNs sourceWl sourceApp sourceVer sourceSvcName o.GraphType).1
            destSvcNs destWl destApp destVer destSvcName o.GraphType).2.1
          (fun n => { n with Metadata := addToDestServices n.Metadata destSvcName })) "httpOut" := by
      rw [sumNodesNum_tmUpdate_preserve _ _ "httpOut"
          (fun n => { n with Metadata := addToDestServices n.Metadata destSvcName })
          (fun n => mdNumD_addToDestServices n.Metadata destSvcName "httpOut" (by decide)),
        sumNodesNum_addNode, sumNodesNum_addNode]
    have hsumsIn : sumNodesNum tm "httpIn" =
        sumNodesNum (tmUpdate (addNode (addNode tm sourceWlNs sourceWl sourceApp sourceVer
          sourceSvcName o.GraphType).1 destSvcNs destWl destApp destVer destSvcName o.GraphType).1
          (addNode (addNode tm sourceWlNs sourceWl sourceApp sourceVer sourceSvcName o.GraphType).1
            destSvcNs destWl destApp destVer destSvcName o.GraphType).2.1
          (fun n => { n with Metadata := addToDestServices n.Metadata destSvcName })) "httpIn" := by
      rw [sumNodesNum_tmUpdate_preserve _ _ "httpIn"
          (fun n => { n with Metadata := addToDestServices n.Metadata destSvcName })
          (fun n => mdNumD_addToDestServices n.Metadata destSvcName "httpIn" (by decide)),
        sumNodesNum_addNode, sumNodesNum_addNode]
    have hsumsE : sumEdgesNum tm "http" =
        sumEdgesNum (tmUpdate (addNode (addNode tm sourceWlNs sourceWl sourceApp sourceVer
          sourceSvcName o.GraphType).1 destSvcNs destWl destApp destVer destSvcName o.GraphType).1
          (addNode (addNode tm sourceWlNs sourceWl sourceApp sourceVer sourceSvcName o.GraphType).1
            destSvcNs destWl destApp destVer destSvcName o.GraphType).2.1
          (fun n => { n with Metadata := addToDestServices n.Metadata destSvcName })) "http" := by
      rw [sumEdgesNum_tmUpdate_preserve _ _ "http"
          (fun n => { n with Metadata := addToDestServices n.Metadata destSvcName })
          (fun n => rfl),
        sumEdgesNum_addNode, sumEdgesNum_addNode]
    rw [hsums, hsumsIn, hsumsE]
    exact httpChain_sums _ _ _ o.GraphType sourceApp sourceVer destApp destVer code _ _ val sn _
      hsn hdpres
      (fun k => edgeSum_findOrCreateEdge sn.Edges _ _ _ "http" k)
      (findOrCreateEdge_idx_lt sn.Edges _ _ _ "http")

/-- C2: counter conservation.  For every list of accepted HTTP samples
processed from an empty map, with or without service-node injection, the sum
of httpOut over all nodes, the sum of httpIn over all nodes and the sum of the
per-edge http counters are all equal. -/
theorem c2_counter_conservation (samples : List HttpSample) (o : Options) :
    sumNodesNum (populateTrafficMapHttp NewTrafficMap samples o) "httpOut" =
        sumNodesNum (populateTrafficMapHttp NewTrafficMap samples o) "httpIn" ∧
      sumNodesNum (populateTrafficMapHttp NewTrafficMap samples o) "httpIn" =
        sumEdgesNum (populateTrafficMapHttp NewTrafficMap samples o) "http" := by
  have hstep : ∀ (tmx : TrafficMap) (v : ℚ) (c a1 a2 a3 a4 a5 b1 b2 b3 b4 b5 : String),
      (sumNodesNum tmx "httpOut" = sumNodesNum tmx "httpIn" ∧
        sumNodesNum tmx "httpIn" = sumEdgesNum tmx "http") →
      (sumNodesNum (addHttpTraffic tmx v c a1 a2 a3 a4 a5 b1 b2 b3 b4 b5 o) "httpOut" =
          sumNodesNum (addHttpTraffic tmx v c a1 a2 a3 a4 a5 b1 b2 b3 b4 b5 o) "httpIn" ∧
        sumNodesNum (addHttpTraffic tmx v c a1 a2 a3 a4 a5 b1 b2 b3 b4 b5 o) "httpIn" =
          sumEdgesNum (addHttpTraffic tmx v c a1 a2 a3 a4 a5 b1 b2 b3 b4 b5 o) "http") := by
    intro tmx v c a1 a2 a3 a4 a5 b1 b2 b3 b4 b5 h
    obtain ⟨d1, d2, d3⟩ := addHttpTraffic_sum_deltas tmx v c a1 a2 a3 a4 a5 b1 b2 b3 b4 b5 o
    exact ⟨by rw [d1, d2, h.1], by rw [d2, d3, h.2]⟩
  have hfold : ∀ (l : List HttpSample) (tmx : TrafficMap),
      (sumNodesNum tmx "httpOut" = sumNodesNum tmx "httpIn" ∧
        sumNodesNum tmx "httpIn" = sumEdgesNum tmx "http") →
      (sumNodesNum (populateTrafficMapHttp tmx l o) "httpOut" =
          sumNodesNum (populateTrafficMapHttp tmx l o) "httpIn" ∧
        sumNodesNum (populateTrafficMapHttp tmx l o) "httpIn" =
          sumEdgesNum (populateTrafficMapHttp tmx l o) "http") := by
    intro l
    induction l with
    | nil => intro tmx h; exact h
    | cons s rest ih =>
      intro tmx h
      refine ih ?_ ?_
      dsimp only
      by_cases hi : o.InjectServiceNodes
      · rw [if_pos hi]
        by_cases hd : (graphId s.destSvcNs s.destWl "Unknown" "Unknown" s.destSvcName
            o.GraphType).2 ≠ NodeTypeService
        · rw [if_pos hd]
          exact hstep _ s.val "200" s.destSvcNs "" "" "" s.destSvcName s.destSvcNs s.destWl
            "Unknown" "Unknown" s.destSvcName
            (hstep tmx s.val "200" s.sourceWlNs s.sourceWl "Unknown" "Unknown" "" s.destSvcNs
              "" "" "" s.destSvcName h)
        · rw [if_neg hd]
          exact hstep tmx s.val "200" s.sourceWlNs s.sourceWl "Unknown" "Unknown" "" s.destSvcNs
            s.destWl "Unknown" "Unknown" s.destSvcName h
      · rw [if_neg hi]
        exact hstep tmx s.val "200" s.sourceWlNs s.sourceWl "Unknown" "Unknown" "" s.destSvcNs
          s.destWl "Unknown" "Unknown" s.destSvcName h
  exact hfold samples NewTrafficMap ⟨rfl, rfl⟩

theorem strStartsWith_single_excl (code : String) (c d : Char) (hcd : c ≠ d)
    (h : strStartsWith code ⟨[d]⟩ = true) : strStartsWith code ⟨[c]⟩ = false := by
  unfold strStartsWith at h ⊢
  cases hs : code.data with
  | nil =>
    rw [hs] at h
    simp [List.isPrefixOf] at h
  | cons b bs =>
    rw [hs] at h
    change List.isPrefixOf [d] (b :: bs) = true at h
    change List.isPrefixOf [c] (b :: bs) = false
    simp only [List.isPrefixOf, Bool.and_true, beq_iff_eq] at h ⊢
    simp only [beq_eq_false_iff_ne, ne_eq]
    intro hc
    exact hcd (by rw [hc, h])

theorem edgesModify_length (es : List Edge) (i : Nat) (f : Edge → Edge) :
    (edgesModify es i f).length = es.length := by
  induction es generalizing i with
  | nil => rfl
  | cons e rest ih =>
    cases i with
    | zero => rfl
    | succ j => simp [edgesModify, ih]

theorem nodeNum_tmUpdate_preserve (tm : TrafficMap) (id k : String) (f : Node → Node)
    (hf : ∀ n, mdNumD (f n).Metadata k = mdNumD n.Metadata k) (a : String) :
    nodeNum (tmUpdate tm id f) a k = nodeNum tm a k := by
  unfold nodeNum
  by_cases h : id = a
  · subst h
    rw [tmLookup_tmUpdate_self]
    cases tmLookup tm id with
    | none => rfl
    | some n => simp [hf]
  · rw [tmLookup_tmUpdate_ne _ _ _ _ h]

theorem nodeNum_tmUpdate_add_self (tm : TrafficMap) (id k : String) (f : Node → Node) (v : ℚ)
    (hf : ∀ n, mdNumD (f n).Metadata k = mdNumD n.Metadata k + v)
    (h : (tmLookup tm id).isSome = true) :
    nodeNum (tmUpdate tm id f) id k = nodeNum tm id k + v := by
  unfold nodeNum
  rw [tmLookup_tmUpdate_self]
  cases hl : tmLookup tm id with
  | none => rw [hl] at h; simp at h
  | some n => simp [hf]

theorem nodeNum_tmInsert_found (tm : TrafficMap) (id k : String) (n m : Node)
    (hl : tmLookup tm id = some n) (hm : mdNumD m.Metadata k = mdNumD n.Metadata k)
    (a : String) : nodeNum (tmInsert tm id m) a k = nodeNum tm a k := by
  unfold nodeNum
  by_cases h : id = a
  · subst h
    rw [tmLookup_tmInsert_self, hl]
    exact hm
  · rw [tmLookup_tmInsert_ne _ _ _ _ h]

theorem nodeNum_addNode (tm : TrafficMap) (ns wl app ver svc g a k : String) :
    nodeNum (addNode tm ns wl app ver svc g).1 a k = nodeNum tm a k := by
  unfold addNode
  dsimp only
  cases h : tmLookup tm (graphId ns wl app ver svc g).1 with
  | some n => rfl
  | none =>
    show nodeNum (tmInsert tm _ _) a k = _
    unfold nodeNum
    by_cases ha : (graphId ns wl app ver svc g).1 = a
    · subst ha
      rw [tmLookup_tmInsert_self, h]
      show mdNumD (NewNodeExplicit _ _ _ _ _ _ _ _).Metadata k = (0 : ℚ)
      rw [NewNodeExplicit_Metadata]
      rfl
    · rw [tmLookup_tmInsert_ne _ _ _ _ ha]

theorem nodeNum_ite_preserve (c : Prop) [Decidable c] (tm : TrafficMap) (id k : String)
    (f : Node → Node) (hf : ∀ n, mdNumD (f n).Metadata k = mdNumD n.Metadata k) (a : String) :
    nodeNum (if c then tmUpdate tm id f else tm) a k = nodeNum tm a k := by
  split_ifs with h
  · exact nodeNum_tmUpdate_preserve tm id k f hf a
  · rfl

theorem addNode_fst_id (tm : TrafficMap) (ns wl app ver svc g : String) :
    (addNode tm ns wl app ver svc g).2.1 = (graphId ns wl app ver svc g).1 := by
  unfold addNode
  dsimp only
  cases tmLookup tm (graphId ns wl app ver svc g).1 <;> rfl

theorem httpChain_bucket_sums (t3 : TrafficMap) (sid did g sApp sVer dApp dVer kb ke : String)
    (sourceFound destFound : Bool) (val : ℚ) (sn : Node) (pe : List Edge × Nat)
    (hsn : tmLookup t3 sid = some sn)
    (hdid : (tmLookup t3 did).isSome = true)
    (hpe1 : ∀ k, edgeSum pe.1 k = edgeSum sn.Edges k)
    (hpe2 : pe.2 < pe.1.length)
    (hkb1 : kb ≠ "isMisconfigured")
    (hkb2 : ("httpOut" : String) ≠ kb) (hkb3 : ("httpIn" : String) ≠ kb)
    (hke : ("http" : String) ≠ ke) :
    (let tm4 := tmInsert t3 sid { sn with Edges := pe.1 }
     let tm5 := if sourceFound then
        tmUpdate tm4 sid (fun n => handleMisconfiguredLabels n sApp sVer val g) else tm4
     let tm6 := if destFound then
        tmUpdate tm5 did (fun n => handleMisconfiguredLabels n dApp dVer val g) else tm5
     let tm7 := tmUpdate tm6 sid
        (fun n => { n with Metadata := addToMetadataValue n.Metadata "httpOut" val })
     let tm8 := tmUpdate tm7 did
        (fun n => { n with Metadata := addToMetadataValue n.Metadata "httpIn" val })
     let tm9 := tmUpdate tm8 sid
        (fun n => { n with Edges := edgeAddVal n.Edges pe.2 "http" val })
     nodeNum (tmUpdate (tmUpdate tm9 did
          (fun n => { n with Metadata := addToMetadataValue n.Metadata kb val })) sid
          (fun n => { n with Edges := edgeAddVal n.Edges pe.2 ke val })) did kb =
        nodeNum t3 did kb + val ∧
      sumEdgesNum (tmUpdate (tmUpdate tm9 did
          (fun n => { n with Metadata := addToMetadataValue n.Metadata kb val })) sid
          (fun n => { n with Edges := edgeAddVal n.Edges pe.2 ke val })) ke =
        sumEdgesNum t3 ke + val) := by
  intro tm4 tm5 tm6 tm7 tm8 tm9
  have h4look : tmLookup tm4 sid = some { sn with Edges := pe.1 } :=
    tmLookup_tmInsert_self t3 sid _
  have h4did : (tmLookup tm4 did).isSome = true :=
    tmLookup_isSome_tmInsert t3 sid did _ hdid
  have e5 : ∀ a, (tmLookup tm5 a).isSome = (tmLookup tm4 a).isSome :=
    fun a => tmLookup_isSome_ite (sourceFound = true) tm4 sid a
      (fun n => handleMisconfiguredLabels n sApp sVer val g)
  have e6 : ∀ a, (tmLookup tm6 a).isSome = (tmLookup tm5 a).isSome :=
    fun a => tmLookup_isSome_ite (destFound = true) tm5 did a
      (fun n => handleMisconfiguredLabels n dApp dVer val g)
  have e7 : ∀ a, (tmLookup tm7 a).isSome = (tmLookup tm6 a).isSome :=
    fun a => tmLookup_tmUpdate_isSome tm6 sid a
      (fun n => { n with Metadata := addToMetadataValue n.Metadata "httpOut" val })
  have e8 : ∀ a, (tmLookup tm8 a).isSome = (tmLookup tm7 a).isSome :=
    fun a => tmLookup_tmUpdate_isSome tm7 did a
      (fun n => { n with Metadata := addToMetadataValue n.Metadata "httpIn" val })
  have e9 : ∀ a, (tmLookup tm9 a).isSome = (tmLookup tm8 a).isSome :=
    fun a => tmLookup_tmUpdate_isSome tm8 sid a
      (fun n => { n with Edges := edgeAddVal n.Edges pe.2 "http" val })
  have h9did : (tmLookup tm9 did).isSome = true := by
    rw [e9, e8, e7, e6, e5]
    exact h4did
  have hview : (tmLookup tm8 sid).map Node.Edges = some pe.1 := by
    calc (tmLookup tm8 sid).map Node.Edges
        = (tmLookup tm7 sid).map Node.Edges :=
          tmLookup_map_Edges_tmUpdate tm7 did sid
            (fun n => { n with Metadata := addToMetadataValue n.Metadata "httpIn" val })
            (fun n => rfl)
      _ = (tmLookup tm6 sid).map Node.Edges :=
          tmLookup_map_Edges_tmUpdate tm6 sid sid
            (fun n => { n with Metadata := addToMetadataValue n.Metadata "httpOut" val })
            (fun n => rfl)
      _ = (tmLookup tm5 sid).map Node.Edges :=
          tmLookup_map_Edges_ite (destFound = true) tm5 did sid
            (fun n => handleMisconfiguredLabels n dApp dVer val g)
            (fun n => handleMisconfiguredLabels_Edges n dApp dVer val g)
      _ = (tmLookup tm4 sid).map Node.Edges :=
          tmLookup_map_Edges_ite (sourceFound = true) tm4 sid sid
            (fun n => handleMisconfiguredLabels n sApp sVer val g)
            (fun n => handleMisconfiguredLabels_Edges n sApp sVer val g)
      _ = some pe.1 := by rw [h4look]; rfl
  constructor
  · calc nodeNum (tmUpdate (tmUpdate tm9 did
          (fun n => { n with Metadata := addToMetadataValue n.Metadata kb val })) sid
          (fun n => { n with Edges := edgeAddVal n.Edges pe.2 ke val })) did kb
        = nodeNum (tmUpdate tm9 did
            (fun n => { n with Metadata := addToMetadataValue n.Metadata kb val })) did kb :=
          nodeNum_tmUpdate_preserve _ sid kb
            (fun n => { n with Edges := edgeAddVal n.Edges pe.2 ke val }) (fun n => rfl) did
      _ = nodeNum tm9 did kb + val :=
          nodeNum_tmUpdate_add_self tm9 did kb
            (fun n => { n with Metadata := addToMetadataValue n.Metadata kb val }) val
            (fun n => mdNumD_addToMetadataValue_self n.Metadata kb val) h9did
      _ = nodeNum tm8 did kb + val := by
          rw [nodeNum_tmUpdate_preserve tm8 sid kb
            (fun n => { n with Edges := edgeAddVal n.Edges pe.2 "http" val }) (fun n => rfl) did]
      _ = nodeNum tm7 did kb + val := by
          rw [nodeNum_tmUpdate_preserve tm7 did kb
            (fun n => { n with Metadata := addToMetadataValue n.Metadata "httpIn" val })
            (fun n => mdNumD_addToMetadataValue_ne n.Metadata "httpIn" kb val hkb3) did]
      _ = nodeNum tm6 did kb + val := by
          rw [nodeNum_tmUpdate_preserve tm6 sid kb
            (fun n => { n with Metadata := addToMetadataValue n.Metadata "httpOut" val })
            (fun n => mdNumD_addToMetadataValue_ne n.Metadata "httpOut" kb val hkb2) did]
      _ = nodeNum tm5 did kb + val := by
          rw [nodeNum_ite_preserve (destFound = true) tm5 did kb
            (fun n => handleMisconfiguredLabels n dApp dVer val g)
            (fun n => mdNumD_handleMisconfiguredLabels n dApp dVer val g kb hkb1) did]
      _ = nodeNum tm4 did kb + val := by
          rw [nodeNum_ite_preserve (sourceFound = true) tm4 sid kb
            (fun n => handleMisconfiguredLabels n sApp sVer val g)
            (fun n => mdNumD_handleMisconfiguredLabels n sApp sVer val g kb hkb1) did]
      _ = nodeNum t3 did kb + val := by
          rw [nodeNum_tmInsert_found t3 sid kb sn { sn with Edges := pe.1 } hsn rfl did]
  · cases h8 : tmLookup tm8 sid with
    | none => rw [h8] at hview; simp at hview
    | some n8 =>
      rw [h8] at hview
      have hn8e : n8.Edges = pe.1 := by simpa using hview
      have h9look : tmLookup tm9 sid =
          some { n8 with Edges := edgeAddVal n8.Edges pe.2 "http" val } := by
        show tmLookup (tmUpdate tm8 sid _) sid = _
        rw [tmLookup_tmUpdate_self, h8]
        rfl
      have hXview : (tmLookup (tmUpdate tm9 did
          (fun n => { n with Metadata := addToMetadataValue n.Metadata kb val })) sid).map
            Node.Edges = some (edgeAddVal n8.Edges pe.2 "http" val) := by
        rw [tmLookup_map_Edges_tmUpdate tm9 did sid
          (fun n => { n with Metadata := addToMetadataValue n.Metadata kb val }) (fun n => rfl),
          h9look]
        rfl
      cases h9' : tmLookup (tmUpdate tm9 did
          (fun n => { n with Metadata := addToMetadataValue n.Metadata kb val })) sid with
      | none => rw [h9'] at hXview; simp at hXview
      | some n9 =>
        rw [h9'] at hXview
        have hn9e : n9.Edges = edgeAddVal n8.Edges pe.2 "http" val := by simpa using hXview
        have hlen : pe.2 < n9.Edges.length := by
          rw [hn9e]
          unfold edgeAddVal
          rw [edgesModify_length, hn8e]
          exact hpe2
        calc sumEdgesNum (tmUpdate (tmUpdate tm9 did
              (fun n => { n with Metadata := addToMetadataValue n.Metadata kb val })) sid
              (fun n => { n with Edges := edgeAddVal n.Edges pe.2 ke val })) ke
            = sumEdgesNum (tmUpdate tm9 did
                (fun n => { n with Metadata := addToMetadataValue n.Metadata kb val })) ke -
                edgeSum n9.Edges ke + edgeSum (edgeAddVal n9.Edges pe.2 ke val) ke :=
              sumEdgesNum_tmUpdate_lookup _ sid ke
                (fun n => { n with Edges := edgeAddVal n.Edges pe.2 ke val }) n9 h9'
          _ = sumEdgesNum (tmUpdate tm9 did
                (fun n => { n with Metadata := addToMetadataValue n.Metadata kb val })) ke +
                val := by
              rw [edgeSum_edgeAddVal_self n9.Edges pe.2 ke val hlen]
              ring
          _ = sumEdgesNum tm9 ke + val := by
              rw [sumEdgesNum_tmUpdate_preserve tm9 did ke
                (fun n => { n with Metadata := addToMetadataValue n.Metadata kb val })
                (fun n => rfl)]
          _ = sumEdgesNum tm8 ke + val := by
              rw [sumEdgesNum_tmUpdate_preserve tm8 sid ke
                (fun n => { n with Edges := edgeAddVal n.Edges pe.2 "http" val })
                (fun n => edgeSum_edgeAddVal_ne n.Edges pe.2 "http" ke val hke)]
          _ = sumEdgesNum tm7 ke + val := by
              rw [sumEdgesNum_tmUpdate_preserve tm7 did ke
                (fun n => { n with Metadata := addToMetadataValue n.Metadata "httpIn" val })
                (fun n => rfl)]
          _ = sumEdgesNum tm6 ke + val := by
              rw [sumEdgesNum_tmUpdate_preserve tm6 sid ke
                (fun n => { n with Metadata := addToMetadataValue n.Metadata "httpOut" val })
                (fun n => rfl)]
          _ = sumEdgesNum tm5 ke + val := by
              rw [sumEdgesNum_ite_preserve (destFound = true) tm5 did ke
                (fun n => handleMisconfiguredLabels n dApp dVer val g)
                (fun n => by rw [handleMisconfiguredLabels_Edges n dApp dVer val g])]
          _ = sumEdgesNum tm4 ke + val := by
              rw [sumEdgesNum_ite_preserve (sourceFound = true) tm4 sid ke
                (fun n => handleMisconfiguredLabels n sApp sVer val g)
                (fun n => by rw [handleMisconfiguredLabels_Edges n sApp sVer val g])]
          _ = sumEdgesNum t3 ke + val := by
              rw [sumEdgesNum_tmInsert_found t3 sid ke sn { sn with Edges := pe.1 }
                hsn (hpe1 ke)]

/-- C6: response-code-class bucketing.  For any state and any accepted call of
addHttpTraffic whose response code falls in the 3xx, 4xx or 5xx class, the
dest node httpIn3xx/4xx/5xx counter and the total of the edge http3xx/4xx/5xx
counters each grow by exactly the sample value. -/
theorem c6_response_class_bucketing (tm : TrafficMap) (val : ℚ)
    (code sourceWlNs sourceWl sourceApp sourceVer sourceSvcName
      destSvcNs destWl destApp destVer destSvcName : String) (o : Options) (cls : String)
    (hcls : cls = "3" ∨ cls = "4" ∨ cls = "5")
    (hcode : strStartsWith code cls = true) :
    nodeNum (addHttpTraffic tm val code sourceWlNs sourceWl sourceApp sourceVer sourceSvcName
        destSvcNs destWl destApp destVer destSvcName o)
        (graphId destSvcNs destWl destApp destVer destSvcName o.GraphType).1
        ("httpIn" ++ cls ++ "xx") =
      nodeNum tm (graphId destSvcNs destWl destApp destVer destSvcName o.GraphType).1
        ("httpIn" ++ cls ++ "xx") + val ∧
      sumEdgesNum (addHttpTraffic tm val code sourceWlNs sourceWl sourceApp sourceVer
        sourceSvcName destSvcNs destWl destApp destVer destSvcName o) ("http" ++ cls ++ "xx") =
      sumEdgesNum tm ("http" ++ cls ++ "xx") + val := by
  have hpres := source_present_after_builder_steps tm sourceWlNs sourceWl sourceApp sourceVer
    sourceSvcName destSvcNs destWl destApp destVer destSvcName o.GraphType
    (fun n => { n with Metadata := addToDestServices n.Metadata destSvcName })
  have hdpres := dest_present_after_builder_steps tm sourceWlNs sourceWl sourceApp sourceVer
    sourceSvcName destSvcNs destWl destApp destVer destSvcName o.GraphType
    (fun n => { n with Metadata := addToDestServices n.Metadata destSvcName })
  unfold addHttpTraffic
  dsimp only
  rw [← addNode_fst_id (addNode tm sourceWlNs sourceWl sourceApp sourceVer sourceSvcName
    o.GraphType).1 destSvcNs destWl destApp destVer destSvcName o.GraphType]
  split
  next hsn =>
    rw [hsn] at hpres
    simp at hpres
  next sn hsn =>
    have hbridgeN : ∀ kb : String, kb ≠ "destServices" →
        nodeNum (tmUpdate (addNode (addNode tm sourceWlNs sourceWl sourceApp sourceVer
            sourceSvcName o.GraphType).1 destSvcNs destWl destApp destVer destSvcName
            o.GraphType).1
          (addNode (addNode tm sourceWlNs sourceWl sourceApp sourceVer sourceSvcName
            o.GraphType).1 destSvcNs destWl destApp destVer destSvcName o.GraphType).2.1
          (fun n => { n with Metadata := addToDestServices n.Metadata destSvcName }))
          (addNode (addNode tm sourceWlNs sourceWl sourceApp sourceVer sourceSvcName
            o.GraphType).1 destSvcNs destWl destApp destVer destSvcName o.GraphType).2.1 kb =
        nodeNum tm (addNode (addNode tm sourceWlNs sourceWl sourceApp sourceVer sourceSvcName
            o.GraphType).1 destSvcNs destWl destApp destVer destSvcName o.GraphType).2.1 kb := by
      intro kb hkb
      rw [nodeNum_tmUpdate_preserve _ _ kb
          (fun n => { n with Metadata := addToDestServices n.Metadata destSvcName })
          (fun n => mdNumD_addToDestServices n.Metadata destSvcName kb hkb) _,
        nodeNum_addNode, nodeNum_addNode]
    have hbridgeE : ∀ ke : String,
        sumEdgesNum (tmUpdate (addNode (addNode tm sourceWlNs sourceWl sourceApp sourceVer
            sourceSvcName o.GraphType).1 destSvcNs destWl destApp destVer destSvcName
            o.GraphType).1
          (addNode (addNode tm sourceWlNs sourceWl sourceApp sourceVer sourceSvcName
            o.GraphType).1 destSvcNs destWl destApp destVer destSvcName o.GraphType).2.1
          (fun n => { n with Metadata := addToDestServices n.Metadata destSvcName })) ke =
        sumEdgesNum tm ke := by
      intro ke
      rw [sumEdgesNum_tmUpdate_preserve _ _ ke
          (fun n => { n with Metadata := addToDestServices n.Metadata destSvcName })
          (fun n => rfl),
        sumEdgesNum_addNode, sumEdgesNum_addNode]
    rcases hcls with rfl | rfl | rfl
    · rw [show ("httpIn" ++ "3" ++ "xx" : String) = "httpIn3xx" from rfl,
        show ("http" ++ "3" ++ "xx" : String) = "http3xx" from rfl,
        if_pos hcode, ← hbridgeN "httpIn3xx" (by decide), ← hbridgeE "http3xx"]
      exact httpChain_bucket_sums _ _ _ o.GraphType sourceApp sourceVer destApp destVer
        "httpIn3xx" "http3xx" _ _ val sn _ hsn hdpres
        (fun k => edgeSum_findOrCreateEdge sn.Edges _ _ _ "http" k)
        (findOrCreateEdge_idx_lt sn.Edges _ _ _ "http")
        (by decide) (by decide) (by decide) (by decide)
    · have h3 : strStartsWith code "3" = false :=
        strStartsWith_single_excl code '3' '4' (by decide) hcode
      rw [show ("httpIn" ++ "4" ++ "xx" : String) = "httpIn4xx" from rfl,
        show ("http" ++ "4" ++ "xx" : String) = "http4xx" from rfl,
        if_neg (by simp [h3]), if_pos hcode,
        ← hbridgeN "httpIn4xx" (by decide), ← hbridgeE "http4xx"]
      exact httpChain_bucket_sums _ _ _ o.GraphType sourceApp sourceVer destApp destVer
        "httpIn4xx" "http4xx" _ _ val sn _ hsn hdpres
        (fun k => edgeSum_findOrCreateEdge sn.Edges _ _ _ "http" k)
        (findOrCreateEdge_idx_lt sn.Edges _ _ _ "http")
        (by decide) (by decide) (by decide) (by decide)
    · have h3 : strStartsWith code "3" = false :=
        strStartsWith_single_excl code '3' '5' (by decide) hcode
      have h4 : strStartsWith code "4" = false :=
        strStartsWith_single_excl code '4' '5' (by decide) hcode
      rw [show ("httpIn" ++ "5" ++ "xx" : String) = "httpIn5xx" from rfl,
        show ("http" ++ "5" ++ "xx" : String) = "http5xx" from rfl,
        if_neg (by simp [h3]), if_neg (by simp [h4]), if_pos hcode,
        ← hbridgeN "httpIn5xx" (by decide), ← hbridgeE "http5xx"]
      exact httpChain_bucket_sums _ _ _ o.GraphType sourceApp sourceVer destApp destVer
        "httpIn5xx" "http5xx" _ _ val sn _ hsn hdpres
        (fun k => edgeSum_findOrCreateEdge sn.Edges _ _ _ "http" k)
        (findOrCreateEdge_idx_lt sn.Edges _ _ _ "http")
        (by decide) (by decide) (by decide) (by decide)

/-- C6 witness: one sample of value 7 with response code 301 from workload a/x
to workload b/y on an empty map bumps the dest node httpIn3xx and the edge
http3xx totals from 0 to 7. -/
theorem c6_response_class_bucketing_witness :
    nodeNum (addHttpTraffic [] 7 "301" "a" "x" "" "" "" "b" "y" "" "" ""
        (Options.mk GraphTypeWorkload false [] []))
        (graphId "b" "y" "" "" "" GraphTypeWorkload).1 ("httpIn" ++ "3" ++ "xx") =
      nodeNum [] (graphId "b" "y" "" "" "" GraphTypeWorkload).1 ("httpIn" ++ "3" ++ "xx") + 7 ∧
      sumEdgesNum (addHttpTraffic [] 7 "301" "a" "x" "" "" "" "b" "y" "" "" ""
        (Options.mk GraphTypeWorkload false [] [])) ("http" ++ "3" ++ "xx") =
      sumEdgesNum [] ("http" ++ "3" ++ "xx") + 7 :=
  c6_response_class_bucketing [] 7 "301" "a" "x" "" "" "" "b" "y" "" "" ""
    (Options.mk GraphTypeWorkload false [] []) "3" (Or.inl rfl) (by decide)

/-! ### C3: merge idempotence -/

/-- The edges a run of the merge loop appends: those of the losing instance
whose (dest id, protocol) key is matched neither by the survivor edges nor by
an earlier appended edge. -/
def newOf (acc : List Edge) : List Edge → List Edge
  | [] => []
  | e :: rest => if hasEdgeMatch acc e then newOf acc rest else e :: newOf (acc ++ [e]) rest

/-- No two edges of the list share a (dest id, protocol) key: the
duplicate-edge freedom the merger is meant to maintain. -/
def edgesOk (es : List Edge) : Prop :=
  List.Pairwise (fun a b => edgeKeyMatchB a b = false) es

theorem edgeKeyMatchB_self (e : Edge) : edgeKeyMatchB e e = true := by
  simp [edgeKeyMatchB]

theorem edgeKeyMatchB_symm (a b : Edge) : edgeKeyMatchB a b = edgeKeyMatchB b a := by
  unfold edgeKeyMatchB
  rw [Bool.eq_iff_iff]
  simp only [Bool.and_eq_true, decide_eq_true_eq]
  constructor
  · rintro ⟨h1, h2⟩
    exact ⟨h1.symm, h2.symm⟩
  · rintro ⟨h1, h2⟩
    exact ⟨h1.symm, h2.symm⟩

theorem hasEdgeMatch_of_mem (es : List Edge) (e : Edge) (h : e ∈ es) :
    hasEdgeMatch es e = true := by
  unfold hasEdgeMatch
  rw [List.any_eq_true]
  exact ⟨e, h, edgeKeyMatchB_self e⟩

theorem hasEdgeMatch_append (a b : List Edge) (e : Edge) :
    hasEdgeMatch (a ++ b) e = (hasEdgeMatch a e || hasEdgeMatch b e) := by
  unfold hasEdgeMatch
  exact List.any_append

theorem mergeEdges_cons (acc : List Edge) (e : Edge) (rest : List Edge) :
    mergeEdges acc (e :: rest) =
      mergeEdges (if hasEdgeMatch acc e then acc else acc ++ [e]) rest := by
  unfold mergeEdges
  rw [List.foldl_cons]

theorem mergeEdges_eq_append (l acc : List Edge) :
    mergeEdges acc l = acc ++ newOf acc l := by
  induction l generalizing acc with
  | nil => simp [mergeEdges, newOf]
  | cons e rest ih =>
    rw [mergeEdges_cons]
    by_cases h : hasEdgeMatch acc e
    · rw [if_pos h]
      show mergeEdges acc rest = acc ++ newOf acc (e :: rest)
      unfold newOf
      rw [if_pos h]
      exact ih acc
    · rw [if_neg h]
      show mergeEdges (acc ++ [e]) rest = acc ++ newOf acc (e :: rest)
      unfold newOf
      rw [if_neg h, ih (acc ++ [e])]
      simp

theorem mergeEdges_all_matched (l acc : List Edge)
    (h : ∀ e ∈ l, hasEdgeMatch acc e = true) : mergeEdges acc l = acc := by
  induction l with
  | nil => rfl
  | cons e rest ih =>
    rw [mergeEdges_cons, if_pos (h e (List.mem_cons_self e rest))]
    exact ih (fun x hx => h x (List.mem_cons_of_mem e hx))

theorem mergeEdges_self (a : List Edge) : mergeEdges a a = a :=
  mergeEdges_all_matched a a (fun e he => hasEdgeMatch_of_mem a e he)

theorem mergeEdges_append_arg (acc x y : List Edge) :
    mergeEdges acc (x ++ y) = mergeEdges (mergeEdges acc x) y := by
  unfold mergeEdges
  rw [List.foldl_append]

theorem mergeEdges_newOf (b acc : List Edge) :
    mergeEdges acc (newOf acc b) = acc ++ newOf acc b := by
  induction b generalizing acc with
  | nil => simp [newOf, mergeEdges]
  | cons e rest ih =>
    unfold newOf
    by_cases h : hasEdgeMatch acc e
    · rw [if_pos h]
      exact ih acc
    · rw [if_neg h]
      rw [mergeEdges_cons, if_neg h, ih (acc ++ [e])]
      simp

theorem mergeEdges_master (a b : List Edge) :
    mergeEdges a (mergeEdges a b) = mergeEdges a b := by
  rw [mergeEdges_eq_append b a, mergeEdges_append_arg, mergeEdges_self, mergeEdges_newOf]

theorem hasEdgeMatch_mergeEdges_of_hasEdgeMatch (l acc : List Edge) (e : Edge)
    (h : hasEdgeMatch acc e = true) : hasEdgeMatch (mergeEdges acc l) e = true := by
  rw [mergeEdges_eq_append, hasEdgeMatch_append, h]
  rfl

theorem hasEdgeMatch_mergeEdges_of_mem (l acc : List Edge) (e : Edge) (he : e ∈ l) :
    hasEdgeMatch (mergeEdges acc l) e = true := by
  induction l generalizing acc with
  | nil => simp at he
  | cons x rest ih =>
    rw [mergeEdges_cons]
    by_cases hx : hasEdgeMatch acc x
    · rw [if_pos hx]
      rcases List.mem_cons.mp he with rfl | hr
      · exact hasEdgeMatch_mergeEdges_of_hasEdgeMatch rest acc e hx
      · exact ih acc hr
    · rw [if_neg hx]
      rcases List.mem_cons.mp he with rfl | hr
      · exact hasEdgeMatch_mergeEdges_of_hasEdgeMatch rest (acc ++ [e]) e
          (hasEdgeMatch_of_mem _ e (by simp))
      · exact ih (acc ++ [x]) hr

theorem mergeEdges_absorb (a b : List Edge) :
    mergeEdges (mergeEdges a b) b = mergeEdges a b :=
  mergeEdges_all_matched b (mergeEdges a b)
    (fun e he => hasEdgeMatch_mergeEdges_of_mem b a e he)

theorem edgesOk_mergeEdges (a b : List Edge) (ha : edgesOk a) : edgesOk (mergeEdges a b) := by
  induction b generalizing a with
  | nil => exact ha
  | cons e rest ih =>
    rw [mergeEdges_cons]
    by_cases h : hasEdgeMatch a e
    · rw [if_pos h]
      exact ih a ha
    · rw [if_neg h]
      refine ih (a ++ [e]) ?_
      unfold edgesOk at ha ⊢
      rw [List.pairwise_append]
      refine ⟨ha, List.pairwise_singleton _ _, ?_⟩
      intro x hx y hy
      rw [List.mem_singleton] at hy
      rw [hy]
      have h' : ∀ z ∈ a, edgeKeyMatchB e z = false := by
        intro z hz
        by_contra hzc
        have hz2 : hasEdgeMatch a e = true := by
          unfold hasEdgeMatch
          rw [List.any_eq_true]
          refine ⟨z, hz, ?_⟩
          revert hzc
          cases edgeKeyMatchB e z <;> simp
        exact h hz2
      rw [edgeKeyMatchB_symm]
      exact h' x hx

/-- The node value the merge loop leaves at a key: the incoming node when the
key is new, otherwise the namespace-preferred survivor with the losing
instance edges copied in. -/
def mergeNodeVal : Option Node → String → Node → Node
  | some node, ns, n =>
    if n.Namespace = ns then { n with Edges := mergeEdges n.Edges node.Edges }
    else { node with Edges := mergeEdges node.Edges n.Edges }
  | none, _, n => n

theorem tmLookup_mergeStep_self (ns : String) (tm : TrafficMap) (p : String × Node) :
    tmLookup (mergeStep ns tm p) p.1 = some (mergeNodeVal (tmLookup tm p.1) ns p.2) := by
  unfold mergeStep mergeNodeVal
  cases tmLookup tm p.1 with
  | none => exact tmLookup_tmInsert_self tm p.1 p.2
  | some node =>
    dsimp only
    by_cases h : p.2.Namespace = ns
    · rw [if_pos h, if_pos h]
      exact tmLookup_tmInsert_self tm p.1 _
    · rw [if_neg h, if_neg h]
      exact tmLookup_tmInsert_self tm p.1 _

theorem tmLookup_mergeStep_ne (ns : String) (tm : TrafficMap) (p : String × Node) (a : String)
    (h : p.1 ≠ a) : tmLookup (mergeStep ns tm p) a = tmLookup tm a := by
  unfold mergeStep
  cases tmLookup tm p.1 with
  | none => exact tmLookup_tmInsert_ne tm p.1 a p.2 h
  | some node =>
    dsimp only
    by_cases hn : p.2.Namespace = ns
    · rw [if_pos hn]
      exact tmLookup_tmInsert_ne tm p.1 a _ h
    · rw [if_neg hn]
      exact tmLookup_tmInsert_ne tm p.1 a _ h

theorem mergeTrafficMaps_cons (g : TrafficMap) (ns : String) (p : String × Node)
    (rest : TrafficMap) :
    mergeTrafficMaps g ns (p :: rest) = mergeTrafficMaps (mergeStep ns g p) ns rest := rfl

theorem tmLookup_merge_frame (m g : TrafficMap) (ns a : String)
    (h : a ∉ m.map Prod.fst) : tmLookup (mergeTrafficMaps g ns m) a = tmLookup g a := by
  induction m generalizing g with
  | nil => rfl
  | cons p rest ih =>
    rw [mergeTrafficMaps_cons]
    have hpa : p.1 ≠ a := by
      intro hc
      exact h (by rw [← hc]; exact List.mem_map_of_mem Prod.fst (List.mem_cons_self p rest))
    rw [ih (mergeStep ns g p) (fun hc => h (List.mem_cons_of_mem _ hc) : a ∉ rest.map Prod.fst)]
    exact tmLookup_mergeStep_ne ns g p a hpa

theorem tmLookup_merge_of_mem (m : TrafficMap) (g : TrafficMap) (ns : String)
    (p : String × Node) (hm : (m.map Prod.fst).Nodup) (hp : p ∈ m) :
    tmLookup (mergeTrafficMaps g ns m) p.1 =
      some (mergeNodeVal (tmLookup g p.1) ns p.2) := by
  induction m generalizing g with
  | nil => simp at hp
  | cons q rest ih =>
    rw [List.map_cons, List.nodup_cons] at hm
    rw [mergeTrafficMaps_cons]
    rcases List.mem_cons.mp hp with rfl | hr
    · rw [tmLookup_merge_frame rest (mergeStep ns g p) ns p.1 hm.1]
      exact tmLookup_mergeStep_self ns g p
    · have hq : q.1 ≠ p.1 := by
        intro hc
        exact hm.1 (by rw [hc]; exact List.mem_map_of_mem Prod.fst hr)
      rw [ih (mergeStep ns g q) hm.2 hr, tmLookup_mergeStep_ne ns g q p.1 hq]

theorem node_eta_Edges (n : Node) : { n with Edges := n.Edges } = n := by
  cases n
  rfl

theorem mergeNodeVal_idem (old : Option Node) (ns : String) (n : Node) :
    mergeNodeVal (some (mergeNodeVal old ns n)) ns n = mergeNodeVal old ns n := by
  cases old with
  | none =>
    show mergeNodeVal (some n) ns n = n
    unfold mergeNodeVal
    dsimp only
    by_cases h : n.Namespace = ns
    · rw [if_pos h, mergeEdges_self, node_eta_Edges]
    · rw [if_neg h, mergeEdges_self, node_eta_Edges]
  | some node =>
    by_cases h : n.Namespace = ns
    · have h1 : mergeNodeVal (some node) ns n =
          { n with Edges := mergeEdges n.Edges node.Edges } := by
        unfold mergeNodeVal
        dsimp only
        rw [if_pos h]
      rw [h1]
      unfold mergeNodeVal
      dsimp only
      rw [if_pos h]
      simp only [mergeEdges_master]
    · have h1 : mergeNodeVal (some node) ns n =
          { node with Edges := mergeEdges node.Edges n.Edges } := by
        unfold mergeNodeVal
        dsimp only
        rw [if_neg h]
      rw [h1]
      unfold mergeNodeVal
      dsimp only
      rw [if_neg h]
      simp only [mergeEdges_absorb]

theorem mergeStep_id (ns : String) (G : TrafficMap) (p : String × Node) (v : Node)
    (hl : tmLookup G p.1 = some v) (hv : mergeNodeVal (some v) ns p.2 = v) :
    mergeStep ns G p = G := by
  unfold mergeStep
  rw [hl]
  unfold mergeNodeVal at hv
  dsimp only at hv ⊢
  by_cases h : p.2.Namespace = ns
  · rw [if_pos h] at hv
    rw [if_pos h, hv]
    exact tmInsert_lookup_self G p.1 v hl
  · rw [if_neg h] at hv
    rw [if_neg h, hv]
    exact tmInsert_lookup_self G p.1 v hl

theorem merge_fixpoint (m : TrafficMap) (ns : String) (G : TrafficMap)
    (h : ∀ p ∈ m, mergeStep ns G p = G) : mergeTrafficMaps G ns m = G := by
  induction m with
  | nil => rfl
  | cons p rest ih =>
    rw [mergeTrafficMaps_cons, h p (List.mem_cons_self p rest)]
    exact ih (fun q hq => h q (List.mem_cons_of_mem p hq))

theorem tmLookup_mem (tm : TrafficMap) (id : String) (v : Node)
    (h : tmLookup tm id = some v) : (id, v) ∈ tm := by
  induction tm with
  | nil => simp [tmLookup] at h
  | cons p rest ih =>
    by_cases hp : p.1 = id
    · simp only [tmLookup, hp, if_pos, Option.some.injEq] at h
      subst h
      rw [← hp]
      exact List.mem_cons_self p rest
    · simp only [tmLookup, hp, if_neg, not_false_iff] at h
      exact List.mem_cons_of_mem p (ih h)

theorem mem_tmInsert (tm : TrafficMap) (id : String) (v : Node) (q : String × Node)
    (h : q ∈ tmInsert tm id v) : q = (id, v) ∨ q ∈ tm := by
  induction tm with
  | nil =>
    simp only [tmInsert, List.mem_singleton] at h
    exact Or.inl h
  | cons p rest ih =>
    unfold tmInsert at h
    by_cases hp : p.1 = id
    · rw [if_pos hp] at h
      rcases List.mem_cons.mp h with rfl | hr
      · exact Or.inl rfl
      · exact Or.inr (List.mem_cons_of_mem p hr)
    · rw [if_neg hp] at h
      rcases List.mem_cons.mp h with rfl | hr
      · exact Or.inr (List.mem_cons_self _ _)
      · rcases ih hr with hq | hq
        · exact Or.inl hq
        · exact Or.inr (List.mem_cons_of_mem p hq)

theorem merge_edgesOk (m : TrafficMap) (ns : String) : ∀ (g : TrafficMap),
    (∀ q ∈ g, edgesOk q.2.Edges) → (∀ q ∈ m, edgesOk q.2.Edges) →
    ∀ q ∈ mergeTrafficMaps g ns m, edgesOk q.2.Edges := by
  induction m with
  | nil =>
    intro g hg _ q hq
    exact hg q hq
  | cons p rest ih =>
    intro g hg hm q hq
    rw [mergeTrafficMaps_cons] at hq
    refine ih (mergeStep ns g p) ?_ (fun r hr => hm r (List.mem_cons_of_mem p hr)) q hq
    intro r hr
    unfold mergeStep at hr
    revert hr
    cases hl : tmLookup g p.1 with
    | none =>
      intro hr
      rcases mem_tmInsert g p.1 p.2 r hr with rfl | hrg
      · exact hm p (List.mem_cons_self p rest)
      · exact hg r hrg
    | some node =>
      intro hr
      dsimp only at hr
      have hnode : (p.1, node) ∈ g := tmLookup_mem g p.1 node hl
      by_cases h : p.2.Namespace = ns
      · rw [if_pos h] at hr
        rcases mem_tmInsert _ _ _ r hr with rfl | hrg
        · show edgesOk (mergeEdges p.2.Edges node.Edges)
          exact edgesOk_mergeEdges _ _ (hm p (List.mem_cons_self p rest))
        · exact hg r hrg
      · rw [if_neg h] at hr
        rcases mem_tmInsert _ _ _ r hr with rfl | hrg
        · show edgesOk (mergeEdges node.Edges p.2.Edges)
          exact edgesOk_mergeEdges _ _ (hg (p.1, node) hnode)
        · exact hg r hrg

/-- C3: merging the same namespace map into a global map a second time is a
no-op, leaving exactly the node set, edge lists and hence counter totals of
the single merge; and whenever the input nodes hold no duplicate
(dest id, protocol) edges, neither does any node of the merged result. -/
theorem c3_merge_idempotent (g m : TrafficMap) (ns : String)
    (hm : (m.map Prod.fst).Nodup) :
    mergeTrafficMaps (mergeTrafficMaps g ns m) ns m = mergeTrafficMaps g ns m ∧
      ((∀ q ∈ g, edgesOk q.2.Edges) → (∀ q ∈ m, edgesOk q.2.Edges) →
        ∀ q ∈ mergeTrafficMaps g ns m, edgesOk q.2.Edges) := by
  constructor
  · apply merge_fixpoint
    intro p hp
    exact mergeStep_id ns _ p _ (tmLookup_merge_of_mem m g ns p hm hp)
      (mergeNodeVal_idem (tmLookup g p.1) ns p.2)
  · intro hg hm2
    exact merge_edgesOk m ns g hg hm2

/-- C3 witness: a global map holding node a from another namespace and a
namespace map for ns1 carrying its own instance of node a plus a new node b. -/
theorem c3_merge_idempotent_witness :
    mergeTrafficMaps (mergeTrafficMaps
        [("a", Node.mk "a" NodeTypeWorkload "other" "a" "" "" ""
          [Edge.mk "a" "b" [("protocol", MetaVal.str "http")]] [])] "ns1"
        [("a", Node.mk "a" NodeTypeWorkload "ns1" "a" "" "" ""
          [Edge.mk "a" "c" [("protocol", MetaVal.str "http")]] []),
         ("b", Node.mk "b" NodeTypeWorkload "ns1" "b" "" "" "" [] [])]) "ns1"
        [("a", Node.mk "a" NodeTypeWorkload "ns1" "a" "" "" ""
          [Edge.mk "a" "c" [("protocol", MetaVal.str "http")]] []),
         ("b", Node.mk "b" NodeTypeWorkload "ns1" "b" "" "" "" [] [])] =
      mergeTrafficMaps
        [("a", Node.mk "a" NodeTypeWorkload "other" "a" "" "" ""
          [Edge.mk "a" "b" [("protocol", MetaVal.str "http")]] [])] "ns1"
        [("a", Node.mk "a" NodeTypeWorkload "ns1" "a" "" "" ""
          [Edge.mk "a" "c" [("protocol", MetaVal.str "http")]] []),
         ("b", Node.mk "b" NodeTypeWorkload "ns1" "b" "" "" "" [] [])] ∧
      ((∀ q ∈ [("a", Node.mk "a" NodeTypeWorkload "other" "a" "" "" ""
          [Edge.mk "a" "b" [("protocol", MetaVal.str "http")]] [])], edgesOk q.2.Edges) →
        (∀ q ∈ [("a", Node.mk "a" NodeTypeWorkload "ns1" "a" "" "" ""
          [Edge.mk "a" "c" [("protocol", MetaVal.str "http")]] []),
         ("b", Node.mk "b" NodeTypeWorkload "ns1" "b" "" "" "" [] [])], edgesOk q.2.Edges) →
        ∀ q ∈ mergeTrafficMaps
          [("a", Node.mk "a" NodeTypeWorkload "other" "a" "" "" ""
            [Edge.mk "a" "b" [("protocol", MetaVal.str "http")]] [])] "ns1"
          [("a", Node.mk "a" NodeTypeWorkload "ns1" "a" "" "" ""
            [Edge.mk "a" "c" [("protocol", MetaVal.str "http")]] []),
           ("b", Node.mk "b" NodeTypeWorkload "ns1" "b" "" "" "" [] [])],
          edgesOk q.2.Edges) :=
  c3_merge_idempotent
    [("a", Node.mk "a" NodeTypeWorkload "other" "a" "" "" ""
      [Edge.mk "a" "b" [("protocol", MetaVal.str "http")]] [])]
    [("a", Node.mk "a" NodeTypeWorkload "ns1" "a" "" "" ""
      [Edge.mk "a" "c" [("protocol", MetaVal.str "http")]] []),
     ("b", Node.mk "b" NodeTypeWorkload "ns1" "b" "" "" "" [] [])] "ns1" (by decide)
